import Mathlib

/-!
Verification of the Hummock storage-coordination subsystem of the meta
service (compaction task creation, epoch commit, compaction reporting,
snapshot pinning), shallowly embedded from
`src/meta/src/hummock/manager/mod.rs` and
`src/meta/src/hummock/compaction/mod.rs`.

Machine integers (u64/u32) are modelled as `Nat`: none of the verified
operations rely on wrap-around, and the source treats the relevant values
(version ids, epochs, sst ids) as unbounded monotone counters.
-/

set_option maxHeartbeats 1000000

/-! ## Association-list maps

`BTreeMap`/`HashMap` from the source are modelled as association lists
with unique-key semantics via first-match lookup. -/

def alLookup {α : Type} (m : List (Nat × α)) (k : Nat) : Option α :=
  match m with
  | [] => none
  | (k', v) :: rest => if k' = k then some v else alLookup rest k

/-- Insert or replace the binding of `k`. -/
def alInsert {α : Type} (m : List (Nat × α)) (k : Nat) (v : α) : List (Nat × α) :=
  match m with
  | [] => [(k, v)]
  | (k', v') :: rest => if k' = k then (k, v) :: rest else (k', v') :: alInsert rest k v

/-- Remove the binding of `k` (all occurrences; keys are unique by construction). -/
def alErase {α : Type} (m : List (Nat × α)) (k : Nat) : List (Nat × α) :=
  match m with
  | [] => []
  | (k', v') :: rest => if k' = k then alErase rest k else (k', v') :: alErase rest k

/-- Modify the binding of `k` in place when present (`get_mut` in the source). -/
def alUpdate {α : Type} (m : List (Nat × α)) (k : Nat) (f : α → α) : List (Nat × α) :=
  match m with
  | [] => []
  | (k', v') :: rest =>
    if k' = k then (k', f v') :: alUpdate rest k f else (k', v') :: alUpdate rest k f

theorem alLookup_alInsert_self {α : Type} (m : List (Nat × α)) (k : Nat) (v : α) :
    alLookup (alInsert m k v) k = some v := by
  induction m with
  | nil => simp [alInsert, alLookup]
  | cons hd tl ih =>
    by_cases h : hd.1 = k
    · simp [alInsert, alLookup, h]
    · simp only [alInsert, h, if_false]
      simpa [alLookup, h] using ih

theorem alLookup_alInsert_ne {α : Type} (m : List (Nat × α)) (k k' : Nat) (v : α)
    (h : k ≠ k') : alLookup (alInsert m k v) k' = alLookup m k' := by
  induction m with
  | nil => simp [alInsert, alLookup, h]
  | cons hd tl ih =>
    by_cases hh : hd.1 = k
    · simp [alInsert, alLookup, hh, h]
    · simp only [alInsert, hh, if_false]
      by_cases hk' : hd.1 = k'
      · simp [alLookup, hk']
      · simpa [alLookup, hk'] using ih

theorem alLookup_alErase_ne {α : Type} (m : List (Nat × α)) (k k' : Nat)
    (h : k ≠ k') : alLookup (alErase m k) k' = alLookup m k' := by
  induction m with
  | nil => simp [alErase, alLookup]
  | cons hd tl ih =>
    obtain ⟨k1, v1⟩ := hd
    by_cases hh : k1 = k
    · have hne : k1 ≠ k' := by simpa [hh] using h
      simp [alErase, alLookup, hh, hne, h, ih]
    · by_cases hk' : k1 = k'
      · simp [alErase, alLookup, hh, hk', Ne.symm h]
      · simp [alErase, alLookup, hh, hk', ih]

theorem alLookup_alUpdate_ne {α : Type} (m : List (Nat × α)) (k k' : Nat)
    (f : α → α) (h : k ≠ k') : alLookup (alUpdate m k f) k' = alLookup m k' := by
  induction m with
  | nil => simp [alUpdate, alLookup]
  | cons hd tl ih =>
    obtain ⟨k1, v1⟩ := hd
    by_cases hh : k1 = k
    · have hne : k1 ≠ k' := by simpa [hh] using h
      simp [alUpdate, alLookup, hh, hne, h, ih]
    · by_cases hk' : k1 = k'
      · simp [alUpdate, alLookup, hh, hk', Ne.symm h]
      · simp [alUpdate, alLookup, hh, hk', ih]

/-! ## Basic hummock data types (from `risingwave_pb::hummock` as used by the
meta manager). -/

/-- `LevelType` proto enum. -/
inductive LevelType where
  | unspecified
  | nonoverlapping
  | overlapping
  deriving DecidableEq, Repr

/-- `compact_task::TaskStatus` proto enum (the variants used by the manager). -/
inductive TaskStatus where
  | unspecified
  | pending
  | success
  | heartbeatCanceled
  | noAvailCanceled
  | assignFailCanceled
  | sendFailCanceled
  | manualCanceled
  | invalidGroupCanceled
  | executeFailed
  deriving DecidableEq, Repr

/-- `compact_task::TaskType` proto enum. -/
inductive TaskType where
  | typeUnspecified
  | dynamic
  | spaceReclaim
  | manual
  | sharedBuffer
  | ttl
  deriving DecidableEq, Repr

/-- `SstableInfo`: projected to the fields the manager reads
(id, table ids, divide version). -/
structure SstableInfo where
  id : Nat
  tableIds : List Nat
  divideVersion : Nat
  deriving DecidableEq, Repr

/-- `InputLevel` of a compact task. -/
structure InputLevel where
  levelIdx : Nat
  levelType : LevelType
  tableInfos : List SstableInfo
  deriving DecidableEq, Repr

/-- A (sub)level of the LSM: `Level` proto message. -/
structure Level where
  levelIdx : Nat
  levelType : LevelType
  tableInfos : List SstableInfo
  subLevelId : Nat
  deriving DecidableEq, Repr

/-- `OverlappingLevel`: the stack of L0 sublevels. -/
structure OverlappingLevel where
  subLevels : List Level
  deriving DecidableEq, Repr

/-- `hummock_version::Levels` of one compaction group. -/
structure Levels where
  l0 : Option OverlappingLevel
  levels : List Level
  deriving DecidableEq, Repr

/-- `HummockVersion`, with per-group levels as an association list keyed by
compaction group id. -/
structure HummockVersion where
  id : Nat
  levels : List (Nat × Levels)
  maxCommittedEpoch : Nat
  safeEpoch : Nat
  deriving DecidableEq, Repr

/-- `IntraLevelDelta`. -/
structure IntraLevelDelta where
  levelIdx : Nat
  l0SubLevelId : Nat
  insertedTableInfos : List SstableInfo
  removedTableIds : List Nat
  deriving DecidableEq, Repr

/-- `group_delta::DeltaType`. -/
inductive GroupDelta where
  | intraLevel (d : IntraLevelDelta)
  | groupConstruct (parentGroupId : Nat) (tableIds : List Nat)
  | groupDestroy
  deriving DecidableEq, Repr

/-- `GroupDeltas` wrapper. -/
structure GroupDeltas where
  groupDeltas : List GroupDelta
  deriving DecidableEq, Repr

def emptyGroupDeltas : GroupDeltas := ⟨[]⟩

/-- `HummockVersionDelta`. -/
structure HummockVersionDelta where
  id : Nat
  prevId : Nat
  groupDeltas : List (Nat × GroupDeltas)
  maxCommittedEpoch : Nat
  safeEpoch : Nat
  trivialMove : Bool
  gcSstIds : List Nat
  deriving DecidableEq, Repr

/-- `CompactTask`: projected to the fields the manager reads and writes. -/
structure CompactTask where
  taskId : Nat
  inputSsts : List InputLevel
  targetLevel : Nat
  targetSubLevelId : Nat
  sortedOutputSsts : List SstableInfo
  watermark : Nat
  taskStatus : TaskStatus
  compactionGroupId : Nat
  taskType : TaskType
  gcDeleteKeys : Bool
  existingTableIds : List Nat
  deriving DecidableEq, Repr

/-- Modify the element at index `i` when present (`level_handlers[idx]` updates). -/
def listModify {α : Type} (l : List α) (i : Nat) (f : α → α) : List α :=
  match l, i with
  | [], _ => []
  | x :: xs, 0 => f x :: xs
  | x :: xs, i + 1 => x :: listModify xs i f

/-- Erase every key of `ks` from the association list. -/
def alEraseAll {α : Type} (m : List (Nat × α)) (ks : List Nat) : List (Nat × α) :=
  match ks with
  | [] => m
  | k :: rest => alEraseAll (alErase m k) rest

theorem alLookup_alEraseAll_mem {α : Type} (ks : List Nat) (m : List (Nat × α)) (g : Nat)
    (h : g ∈ ks) : alLookup (alEraseAll m ks) g = none := by
  induction ks generalizing m with
  | nil => cases h
  | cons k rest ih =>
    rcases List.mem_cons.mp h with h1 | h2
    · subst h1
      by_cases hg : g ∈ rest
      · exact ih _ hg
      · have : ∀ m' : List (Nat × α), alLookup m' g = none →
            alLookup (alEraseAll m' rest) g = none := by
          intro m' hm'
          clear ih h
          induction rest generalizing m' with
          | nil => simpa [alEraseAll] using hm'
          | cons r rs ihr =>
            have hr : r ≠ g := by
              intro hrg
              exact hg (by simp [hrg])
            simp only [alEraseAll]
            refine ihr (fun hx => hg (List.mem_cons_of_mem _ hx)) _ ?_
            rw [alLookup_alErase_ne _ _ _ hr]
            exact hm'
        refine this _ ?_
        have : alLookup (alErase m g) g = none := by
          clear this
          induction m with
          | nil => simp [alErase, alLookup]
          | cons hd tl ihm =>
            obtain ⟨k1, v1⟩ := hd
            by_cases hk : k1 = g
            · simpa [alErase, hk] using ihm
            · simpa [alErase, alLookup, hk] using ihm
        exact this
    · exact ih _ h2

theorem alLookup_alEraseAll_notMem {α : Type} (ks : List Nat) (m : List (Nat × α)) (g : Nat)
    (h : g ∉ ks) : alLookup (alEraseAll m ks) g = alLookup m g := by
  induction ks generalizing m with
  | nil => simp [alEraseAll]
  | cons k rest ih =>
    have hk : k ≠ g := fun hkg => h (by simp [hkg])
    have hrest : g ∉ rest := fun hg => h (by simp [hg])
    simp only [alEraseAll]
    rw [ih _ hrest, alLookup_alErase_ne _ _ _ hk]

/-! ## Level handler and compact status

`LevelHandler` lives in `meta/src/hummock/level_handler.rs`, which is not in
the provided sources. Modelled from the spec: per-level bookkeeping of SSTs
locked by pending compaction tasks, with `add_pending_task` recording
(sst id, target level) pairs per task, `remove_task` dropping a task's
entries (idempotent), and `pending_task_id_by_sst` the reverse lookup. -/

structure PendingTask where
  taskId : Nat
  targetLevel : Nat
  ssts : List Nat
  deriving DecidableEq, Repr

structure LevelHandler where
  levelIdx : Nat
  pendingTasks : List PendingTask
  deriving DecidableEq, Repr

def LevelHandler.removeTask (h : LevelHandler) (taskId : Nat) : LevelHandler :=
  { h with pendingTasks := h.pendingTasks.filter (fun t => t.taskId ≠ taskId) }

def LevelHandler.addPendingTask (h : LevelHandler) (taskId targetLevel : Nat)
    (ssts : List SstableInfo) : LevelHandler :=
  { h with pendingTasks :=
      h.pendingTasks ++ [⟨taskId, targetLevel, ssts.map (fun s => s.id)⟩] }

def LevelHandler.pendingTaskIdBySst (h : LevelHandler) (sstId : Nat) : Option Nat :=
  (h.pendingTasks.find? (fun t => sstId ∈ t.ssts)).map (fun t => t.taskId)

/-- `CompactStatus` from `compaction/mod.rs`. -/
structure CompactStatus where
  compactionGroupId : Nat
  levelHandlers : List LevelHandler
  deriving DecidableEq, Repr

/-- `CompactStatus::new`: one handler per level `0..=max_level`. -/
def CompactStatus.new (compactionGroupId maxLevel : Nat) : CompactStatus :=
  { compactionGroupId := compactionGroupId
    levelHandlers := (List.range (maxLevel + 1)).map (fun l => ⟨l, []⟩) }

/-- `CompactStatus::report_compact_task`: remove the task's locks from every
input level, regardless of outcome. -/
def CompactStatus.reportCompactTask (cs : CompactStatus) (task : CompactTask) : CompactStatus :=
  { cs with
    levelHandlers :=
      task.inputSsts.foldl
        (fun hs lvl => listModify hs lvl.levelIdx (fun h => h.removeTask task.taskId))
        cs.levelHandlers }

/-- The body of `CompactStatus::is_trivial_move_task` over the task's
input levels and target level. -/
def isTrivialMoveInput (inputSsts : List InputLevel) (targetLevel : Nat) : Bool :=
  match inputSsts with
  | [a, b] =>
    if a.levelType ≠ LevelType.nonoverlapping then false
    else if a.levelIdx = b.levelIdx ∧ a.levelIdx > 0 then false
    else if b.levelIdx = targetLevel ∧ b.tableInfos = [] then true
    else false
  | _ => false

/-- `CompactStatus::is_trivial_move_task`. -/
def CompactStatus.isTrivialMoveTask (task : CompactTask) : Bool :=
  isTrivialMoveInput task.inputSsts task.targetLevel

/-! ## Level selector output (`CompactionInput` / `CompactionTask`,
`create_compaction_task` from `compaction/mod.rs`). -/

/-- `CompactionInput`. -/
structure CompactionInput where
  inputLevels : List InputLevel
  targetLevel : Nat
  targetSubLevelId : Nat
  deriving DecidableEq, Repr

/-- `CompactionConfig`: projected to the fields `create_compaction_task`
reads. -/
structure CompactionConfig where
  targetFileSizeBase : Nat
  compressionAlgorithm : List String
  maxLevel : Nat
  deriving DecidableEq, Repr

/-- Selector-level `CompactionTask` descriptor. -/
structure CompactionTask where
  input : CompactionInput
  compressionAlgorithm : String
  targetFileSize : Nat
  compactionTaskType : TaskType
  deriving DecidableEq, Repr

/-- `create_compaction_task` from `compaction/mod.rs`. The source asserts
`target_level >= base_level` when `target_level > 0`; `Nat` subtraction
makes the out-of-range case total. -/
def create_compaction_task (compactionConfig : CompactionConfig)
    (input : CompactionInput) (baseLevel : Nat)
    (compactionTaskType : TaskType) : CompactionTask :=
  let targetFileSize :=
    if input.targetLevel = 0 then
      compactionConfig.targetFileSizeBase
    else
      let step := (input.targetLevel - baseLevel) / 2
      compactionConfig.targetFileSizeBase <<< step
  let compressionAlgorithm :=
    if input.targetLevel = 0 then
      compactionConfig.compressionAlgorithm.getD 0 ""
    else
      let idx := input.targetLevel - baseLevel + 1
      compactionConfig.compressionAlgorithm.getD idx ""
  { input := input
    compressionAlgorithm := compressionAlgorithm
    targetFileSize := targetFileSize
    compactionTaskType := compactionTaskType }

/-- C7: for a task created by the selector, `target_file_size` is the
configured base shifted by `(target_level - base_level) / 2` when the
target level is positive and the base file size for L0, and the
compression algorithm is `config.compression[target_level - base_level + 1]`
(index `0` for L0). -/
theorem create_compaction_task_file_size_and_compression
    (cfg : CompactionConfig) (input : CompactionInput) (baseLevel : Nat)
    (ty : TaskType)
    (hbase : baseLevel ≤ input.targetLevel)
    (hidx : input.targetLevel - baseLevel + 1 < cfg.compressionAlgorithm.length)
    (h0 : 0 < cfg.compressionAlgorithm.length) :
    (0 < input.targetLevel →
      (create_compaction_task cfg input baseLevel ty).targetFileSize =
        cfg.targetFileSizeBase <<< ((input.targetLevel - baseLevel) / 2) ∧
      (create_compaction_task cfg input baseLevel ty).compressionAlgorithm =
        cfg.compressionAlgorithm.get
          ⟨input.targetLevel - baseLevel + 1, hidx⟩) ∧
    (input.targetLevel = 0 →
      (create_compaction_task cfg input baseLevel ty).targetFileSize =
        cfg.targetFileSizeBase ∧
      (create_compaction_task cfg input baseLevel ty).compressionAlgorithm =
        cfg.compressionAlgorithm.get ⟨0, h0⟩) := by
  constructor
  · intro hpos
    have hne : input.targetLevel ≠ 0 := Nat.pos_iff_ne_zero.mp hpos
    constructor
    · simp [create_compaction_task, hne]
    · simp only [create_compaction_task, hne, if_false]
      rw [List.getD_eq_get _ _ hidx]
  · intro hz
    constructor
    · simp [create_compaction_task, hz]
    · simp only [create_compaction_task, hz, if_true]
      rw [List.getD_eq_get _ _ h0]

/-! ## Manager state

The two manager locks of `HummockManager` guard `Compaction` (compact
statuses, task assignments, cached selectors) and `Versioning` (current
version, delta log, branched SSTs, stats, pins). `latest_snapshot` is the
atomic snapshot cell. Metastore interaction is modelled by a `storeOk`
flag: the `commit_multi_var` macro applies all staged value transactions to
the store and, only upon success, commits them to the in-memory state;
`ValTransaction`/`BTreeMapTransaction` (from `crate::model`, not among the
provided sources) are modelled from the spec: in-memory mutations are
staged and committed to RAM only on a successful store commit, otherwise
dropped. -/

/-- `branched_ssts`: sst id → (group id → divide version). -/
abbrev BranchedSsts := List (Nat × List (Nat × Nat))

structure CompactTaskAssignment where
  compactTask : CompactTask
  contextId : Nat
  deriving DecidableEq, Repr

structure HummockPinnedSnapshot where
  contextId : Nat
  minimalPinnedSnapshot : Nat
  deriving DecidableEq, Repr

structure HummockSnapshot where
  committedEpoch : Nat
  currentEpoch : Nat
  deriving DecidableEq, Repr

/-- `INVALID_EPOCH` from `risingwave_common::util::epoch`. -/
def INVALID_EPOCH : Nat := 0

/-- The `Versioning` lock contents (projected to the fields the verified
operations touch). -/
structure Versioning where
  currentVersion : HummockVersion
  hummockVersionDeltas : List (Nat × HummockVersionDelta)
  branchedSsts : BranchedSsts
  versionStats : List (Nat × Int)
  pinnedSnapshots : List (Nat × HummockPinnedSnapshot)
  disableCommitEpochs : Bool
  deriving DecidableEq, Repr

/-- The `Compaction` lock contents. The cached per-group selectors are trait
objects in the source; they are projected to the set of task types cached
per group, which is all the manager's control flow depends on. -/
structure Compaction where
  compactionStatuses : List (Nat × CompactStatus)
  compactTaskAssignment : List (Nat × CompactTaskAssignment)
  compactionSelectors : List (Nat × List TaskType)
  deriving DecidableEq, Repr

structure ManagerState where
  compaction : Compaction
  versioning : Versioning
  latestSnapshot : HummockSnapshot
  deriving DecidableEq, Repr

/-! ## `drop_sst`, `gen_version_delta`, `is_compact_task_expired`
(from `manager/mod.rs`). -/

/-- `drop_sst`: remove `group_id` from the sst's branched entry; the sst is
garbage (result `true`) when its entry vanishes or never existed. -/
def dropSst (branched : BranchedSsts) (groupId id : Nat) : Bool × BranchedSsts :=
  match alLookup branched id with
  | some entry =>
    let entry' := alErase entry groupId
    if entry' = [] then (true, alErase branched id)
    else (false, alInsert branched id entry')
  | none => (true, branched)

/-- The per-sst removal fold inside `gen_version_delta`: collect removed sst
ids and, when not a trivial move, run `drop_sst` accumulating gc ids. -/
def removeLevelSsts (groupId : Nat) (trivialMove : Bool) :
    List SstableInfo → BranchedSsts → List Nat × List Nat × BranchedSsts
  | [], b => ([], [], b)
  | sst :: rest, b =>
    let dr := if trivialMove then (false, b) else dropSst b groupId sst.id
    let rec' := removeLevelSsts groupId trivialMove rest dr.2
    (sst.id :: rec'.1, (if dr.1 then [sst.id] else []) ++ rec'.2.1, rec'.2.2)

/-- The input-level loop of `gen_version_delta`: one removal `IntraLevelDelta`
per input level. -/
def genInputDeltas (groupId : Nat) (trivialMove : Bool) :
    List InputLevel → BranchedSsts → List GroupDelta × List Nat × BranchedSsts
  | [], b => ([], [], b)
  | lvl :: rest, b =>
    let rl := removeLevelSsts groupId trivialMove lvl.tableInfos b
    let gd := GroupDelta.intraLevel ⟨lvl.levelIdx, 0, [], rl.1⟩
    let rec' := genInputDeltas groupId trivialMove rest rl.2.2
    (gd :: rec'.1, rl.2.1 ++ rec'.2.1, rec'.2.2)

/-- `gen_version_delta` from `manager/mod.rs`: removal deltas for every input
level, an insertion delta for the sorted output at the target level keyed by
the target sub-level id, `safe_epoch = max(old, watermark)`,
`id = old.id + 1`; the delta is inserted into the delta-log transaction
unless in deterministic mode. -/
def genVersionDelta (deltas : List (Nat × HummockVersionDelta)) (branched : BranchedSsts)
    (oldVersion : HummockVersion) (task : CompactTask) (trivialMove : Bool)
    (deterministicMode : Bool) :
    HummockVersionDelta × List (Nat × HummockVersionDelta) × BranchedSsts :=
  let gid := genInputDeltas task.compactionGroupId trivialMove task.inputSsts branched
  let insertDelta : GroupDelta :=
    GroupDelta.intraLevel ⟨task.targetLevel, task.targetSubLevelId, task.sortedOutputSsts, []⟩
  let versionDelta : HummockVersionDelta :=
    { id := oldVersion.id + 1
      prevId := oldVersion.id
      groupDeltas := [(task.compactionGroupId, ⟨gid.1 ++ [insertDelta]⟩)]
      maxCommittedEpoch := oldVersion.maxCommittedEpoch
      safeEpoch := max oldVersion.safeEpoch task.watermark
      trivialMove := trivialMove
      gcSstIds := gid.2.1 }
  let deltas' := if deterministicMode then deltas else alInsert deltas versionDelta.id versionDelta
  (versionDelta, deltas', gid.2.2)

/-- The per-sst expiry test inside `is_compact_task_expired`. -/
def sstExpired (groupId : Nat) (branched : BranchedSsts) (sst : SstableInfo) : Bool :=
  match alLookup branched sst.id with
  | some entry =>
    match alLookup entry groupId with
    | some divideVersion => divideVersion > sst.divideVersion
    | none => true
  | none => decide (0 > sst.divideVersion)

/-- The body of `is_compact_task_expired` over the task's group and input
levels. -/
def inputSstsExpired (groupId : Nat) (lvls : List InputLevel)
    (branched : BranchedSsts) : Bool :=
  lvls.any (fun lvl => lvl.tableInfos.any (sstExpired groupId branched))

/-- `is_compact_task_expired`: some input sst is branched away from the
task's group or has a higher divide version than recorded at dispatch. -/
def isCompactTaskExpired (task : CompactTask) (branched : BranchedSsts) : Bool :=
  inputSstsExpired task.compactionGroupId task.inputSsts branched

/-! ## Applying a version delta

`HummockVersion::apply_version_delta` lives in
`risingwave_hummock_sdk::compaction_group::hummock_version_ext`, which is
not among the provided sources. Modelled from the spec: applying a delta to
the version with id `prev_id` yields the version with id `new_id`; intra
level deltas remove the removed sst ids from the addressed level (for L0,
from its sublevels, dropping emptied sublevels) and insert the inserted
ssts (a new sublevel keyed by `l0_sub_level_id` for L0, appended at the
level otherwise); `GroupConstruct` installs fresh levels and `GroupDestroy`
removes the group. -/

def levelRemoveIds (lvl : Level) (ids : List Nat) : Level :=
  { lvl with tableInfos := lvl.tableInfos.filter (fun s => s.id ∉ ids) }

def levelsApplyIntra (ls : Levels) (d : IntraLevelDelta) : Levels :=
  if d.levelIdx = 0 then
    let l0' := ls.l0.map (fun o =>
      let removed := (o.subLevels.map (fun sl => levelRemoveIds sl d.removedTableIds)).filter
        (fun sl => sl.tableInfos ≠ [])
      if d.insertedTableInfos = [] then ⟨removed⟩
      else ⟨removed ++ [⟨0, LevelType.nonoverlapping, d.insertedTableInfos, d.l0SubLevelId⟩]⟩)
    { ls with l0 := l0' }
  else
    { ls with levels := ls.levels.map (fun lvl =>
        if lvl.levelIdx = d.levelIdx then
          let removed := levelRemoveIds lvl d.removedTableIds
          { removed with tableInfos := removed.tableInfos ++ d.insertedTableInfos }
        else lvl) }

/-- Modelled from the spec: fresh levels for a constructed group
(initial L0 plus empty L1..Lmax; the max level is immaterial to the
verified claims and rendered as empty). -/
def initialGroupLevels : Levels := { l0 := some ⟨[]⟩, levels := [] }

def HummockVersion.applyDelta (v : HummockVersion) (delta : HummockVersionDelta) :
    HummockVersion :=
  let levels' := delta.groupDeltas.foldl
    (fun acc p =>
      p.2.groupDeltas.foldl
        (fun acc gd =>
          match gd with
          | GroupDelta.intraLevel d => alUpdate acc p.1 (fun ls => levelsApplyIntra ls d)
          | GroupDelta.groupConstruct _ _ => alInsert acc p.1 initialGroupLevels
          | GroupDelta.groupDestroy => alErase acc p.1)
        acc)
    v.levels
  { id := delta.id
    levels := levels'
    maxCommittedEpoch := delta.maxCommittedEpoch
    safeEpoch := delta.safeEpoch }

/-! ## `report_compact_task_impl` (from `manager/mod.rs`). -/

/-- Merge a table-stats change into the version stats
(`add_prost_table_stats_map`, numeric merge). -/
def addTableStats (stats : List (Nat × Int)) (change : List (Nat × Int)) : List (Nat × Int) :=
  change.foldl
    (fun acc p =>
      match alLookup acc p.1 with
      | some v => alInsert acc p.1 (v + p.2)
      | none => alInsert acc p.1 p.2)
    stats

/-- The assignment-validation test of `report_compact_task_impl`: with a
context id given, the recorded assignee must exist and match. -/
def reportValidationOk (contextId : Option Nat) (assignee : Option Nat) : Bool :=
  match contextId, assignee with
  | none, _ => true
  | some c, some a => a = c
  | some _, none => false

/-- `report_compact_task_impl`. Returns (transaction outcome carrying the
`assigned` flag, the mutated task, the manager state after the call).
Mirrors the source order: purge unregistered groups (the selector cache is
mutated eagerly, the compact statuses only through the staged transaction),
remove and validate the assignment, release the task's level-handler locks
(or force `InvalidGroupCanceled` when the group has no compact status),
check expiry for `Success` tasks, then either generate and commit a version
delta (success) or commit only statuses and assignments (cancel/failure).
All staged changes are dropped when the store transaction fails. -/
def purgeKeysOf (statuses : List (Nat × CompactStatus)) (registeredGroups : List Nat) :
    List Nat :=
  (statuses.map (fun p => p.1)).filter (fun g => g ∉ registeredGroups)

def reportCompactTaskImpl (contextId : Option Nat) (task : CompactTask)
    (registeredGroups : List Nat) (tableStatsChange : Option (List (Nat × Int)))
    (storeOk : Bool) (deterministicMode : Bool) (s : ManagerState) :
    Except Unit Bool × CompactTask × ManagerState :=
  let purgeKeys := purgeKeysOf s.compaction.compactionStatuses registeredGroups
  let stagedStatuses := alEraseAll s.compaction.compactionStatuses purgeKeys
  let selectors1 := alEraseAll s.compaction.compactionSelectors purgeKeys
  let sSel : ManagerState :=
    { s with compaction := { s.compaction with compactionSelectors := selectors1 } }
  let assignee := (alLookup s.compaction.compactTaskAssignment task.taskId).map
    (fun a => a.contextId)
  let stagedAssignments := alErase s.compaction.compactTaskAssignment task.taskId
  if ¬reportValidationOk contextId assignee then (Except.ok false, task, sSel)
  else
    let st :=
      match alLookup stagedStatuses task.compactionGroupId with
      | some _ =>
        (alUpdate stagedStatuses task.compactionGroupId
          (fun cs => cs.reportCompactTask task), task)
      | none => (stagedStatuses, { task with taskStatus := TaskStatus.invalidGroupCanceled })
    let stagedStatuses2 := st.1
    let task1 := st.2
    let current := s.versioning.currentVersion
    let suc :=
      if task1.taskStatus = TaskStatus.success then
        let isExpired := (alLookup current.levels task1.compactionGroupId).isNone
          || isCompactTaskExpired task1 s.versioning.branchedSsts
        if isExpired then (false, { task1 with taskStatus := TaskStatus.invalidGroupCanceled })
        else (true, task1)
      else (false, task1)
    let isSuccess := suc.1
    let task2 := suc.2
    if isSuccess then
      let gvd :=
        genVersionDelta s.versioning.hummockVersionDeltas s.versioning.branchedSsts
          current task2 (CompactStatus.isTrivialMoveTask task2) deterministicMode
      let versionDelta := gvd.1
      let deltas' := gvd.2.1
      let branched' := gvd.2.2
      let stats' :=
        match tableStatsChange with
        | some change => addTableStats s.versioning.versionStats change
        | none => s.versioning.versionStats
      if ¬storeOk then (Except.error (), task2, sSel)
      else
        (Except.ok true, task2,
          { compaction :=
              { compactionStatuses := stagedStatuses2
                compactTaskAssignment := stagedAssignments
                compactionSelectors := selectors1 }
            versioning :=
              { currentVersion := current.applyDelta versionDelta
                hummockVersionDeltas := deltas'
                branchedSsts := branched'
                versionStats := stats'
                pinnedSnapshots := s.versioning.pinnedSnapshots
                disableCommitEpochs := s.versioning.disableCommitEpochs }
            latestSnapshot := s.latestSnapshot })
    else
      if ¬storeOk then (Except.error (), task2, sSel)
      else
        (Except.ok true, task2,
          { sSel with compaction :=
              { compactionStatuses := stagedStatuses2
                compactTaskAssignment := stagedAssignments
                compactionSelectors := selectors1 } })

/-! ## `commit_epoch` (from `manager/mod.rs`). -/

/-- `ExtendedSstableInfo`: an sst with its declared compaction group and
accompanying table stats. -/
structure ExtendedSstableInfo where
  compactionGroupId : Nat
  sstInfo : SstableInfo
  tableStats : List (Nat × Int)
  deriving DecidableEq, Repr

/-- Push onto a `BTreeMap<_, Vec<_>>` entry (`entry(k).or_default().push(v)`). -/
def alPushEntry {α : Type} (m : List (Nat × List α)) (k : Nat) (v : α) : List (Nat × List α) :=
  match alLookup m k with
  | some _ => alUpdate m k (fun l => l ++ [v])
  | none => alInsert m k [v]

/-- Push a group delta onto the per-group entry of a delta's
`group_deltas` map (`entry(g).or_default().group_deltas.push(gd)`). -/
def alPushGroupDelta (m : List (Nat × GroupDeltas)) (k : Nat) (gd : GroupDelta) :
    List (Nat × GroupDeltas) :=
  match alLookup m k with
  | some _ => alUpdate m k (fun e => ⟨e.groupDeltas ++ [gd]⟩)
  | none => alInsert m k ⟨[gd]⟩

/-- Stable insertion into a list sorted by `key` (equal keys keep insertion
order when built with `stableSortBy`). -/
def insertSortedBy {α : Type} (key : α → Nat) (x : α) : List α → List α
  | [] => [x]
  | y :: ys => if key x ≤ key y then x :: y :: ys else y :: insertSortedBy key x ys

/-- Stable sort by a `Nat` key (`sorted_by_key` is a stable sort in the
source). -/
def stableSortBy {α : Type} (key : α → Nat) (l : List α) : List α :=
  l.foldr (insertSortedBy key) []

/-- Group consecutive elements sharing a key (`group_by` from itertools). -/
def chunkByKey {α : Type} (key : α → Nat) : List α → List (Nat × List α)
  | [] => []
  | x :: xs =>
    match chunkByKey key xs with
    | [] => [(key x, [x])]
    | (k, grp) :: rest =>
      if key x = k then (k, x :: grp) :: rest
      else (key x, [x]) :: (k, grp) :: rest

/-- The `group_table_ids` map inside `commit_epoch`: table id → owning group
via the compaction-group index, accumulated per group; tables absent from
the index are skipped (warned in the source). `BTreeMap` iterates in key
order, hence the final sort. -/
def buildGroupTableIds (tableIds : List Nat) (compactionGroupIndex : List (Nat × Nat)) :
    List (Nat × List Nat) :=
  stableSortBy (fun p => p.1)
    (tableIds.foldl
      (fun acc t =>
        match alLookup compactionGroupIndex t with
        | some g => alPushEntry acc g t
        | none => acc)
      [])

/-- The `retain_mut` pass of `commit_epoch`: keep ssts whose declared group
covers all their tables; split the others into per-group branches
(bumping `divide_version` unless the adjustment is trivial) and record the
branching. Returns (retained ssts, branch ssts, updated branched map). -/
def retainAndBranchSsts (compactionGroups : List (Nat × List Nat))
    (compactionGroupIndex : List (Nat × Nat)) :
    List ExtendedSstableInfo → BranchedSsts →
    List ExtendedSstableInfo × List ExtendedSstableInfo × BranchedSsts
  | [], b => ([], [], b)
  | e :: rest, b =>
    let declared :=
      match alLookup compactionGroups e.compactionGroupId with
      | some members => e.sstInfo.tableIds.all (fun t => t ∈ members)
      | none => false
    if declared then
      let rec' := retainAndBranchSsts compactionGroups compactionGroupIndex rest b
      (e :: rec'.1, rec'.2.1, rec'.2.2)
    else
      let groupTableIds := buildGroupTableIds e.sstInfo.tableIds compactionGroupIndex
      let isTrivialAdjust : Bool :=
        match groupTableIds with
        | [(_, ids)] => ids.length == e.sstInfo.tableIds.length
        | _ => false
      let sst' :=
        if isTrivialAdjust then e.sstInfo
        else { e.sstInfo with divideVersion := e.sstInfo.divideVersion + 1 }
      let branchEntries := groupTableIds.map
        (fun p => ExtendedSstableInfo.mk p.1 { sst' with tableIds := p.2 } [])
      let branchGroups := groupTableIds.map (fun p => (p.1, sst'.divideVersion))
      let b1 :=
        if !branchGroups.isEmpty && !isTrivialAdjust then alInsert b sst'.id branchGroups
        else b
      let rec' := retainAndBranchSsts compactionGroups compactionGroupIndex rest b1
      (rec'.1, branchEntries ++ rec'.2.1, rec'.2.2)

/-- Modelled from the spec: `add_new_sub_level`
(`risingwave_hummock_sdk::compaction_group::hummock_version_ext`, not among
the provided sources) appends a new L0 sublevel keyed by `sub_level_id`
with the given level type. -/
def addNewSubLevel (o : OverlappingLevel) (subLevelId : Nat) (ty : LevelType)
    (ssts : List SstableInfo) : OverlappingLevel :=
  ⟨o.subLevels ++ [⟨0, ty, ssts, subLevelId⟩]⟩

/-- The per-group commit loop of `commit_epoch`: for each group receiving
ssts, push an L0 `IntraLevelDelta` keyed by `l0_sub_level_id = epoch` and
add an Overlapping L0 sublevel to the new version. Returns the modified
group ids, the delta's group-deltas map, and the new per-group levels. -/
def commitGroupSsts (epoch : Nat) :
    List (Nat × List SstableInfo) → List (Nat × GroupDeltas) → List (Nat × Levels) →
    List Nat × List (Nat × GroupDeltas) × List (Nat × Levels)
  | [], gds, lvls => ([], gds, lvls)
  | (g, ssts) :: rest, gds, lvls =>
    let gd := GroupDelta.intraLevel ⟨0, epoch, ssts, []⟩
    let gds1 := alPushGroupDelta gds g gd
    let lvls1 := alUpdate lvls g (fun L =>
      { L with l0 := L.l0.map (fun o => addNewSubLevel o epoch LevelType.overlapping ssts) })
    let rec' := commitGroupSsts epoch rest gds1 lvls1
    (g :: rec'.1, rec'.2.1, rec'.2.2)

/-- All table ids referenced by the ssts of a version (for the stats purge). -/
def levelsTableIds (L : Levels) : List Nat :=
  (match L.l0 with
   | some o => o.subLevels.flatMap (fun sl => sl.tableInfos.flatMap (fun s => s.tableIds))
   | none => []) ++
  L.levels.flatMap (fun sl => sl.tableInfos.flatMap (fun s => s.tableIds))

def versionTableIds (v : HummockVersion) : List Nat :=
  v.levels.flatMap (fun p => levelsTableIds p.2)

/-- `purge_prost_table_stats`: drop stats of tables no longer present in
the version. -/
def purgeTableStats (stats : List (Nat × Int)) (v : HummockVersion) : List (Nat × Int) :=
  stats.filter (fun p => p.1 ∈ versionTableIds v)

/-- The pure core of `commit_epoch`: aggregate stats, retain/branch the
ssts, group them by compaction group, build the version delta
(`prev_id = current.id`, `new_id = current.id + 1`) and the new version
with `max_committed_epoch = epoch`. Returns
(delta, new version, modified groups, branched ssts, new stats). -/
def commitEpochCore (epoch : Nat) (sstables : List ExtendedSstableInfo)
    (compactionGroups : List (Nat × List Nat)) (compactionGroupIndex : List (Nat × Nat))
    (v : Versioning) :
    HummockVersionDelta × HummockVersion × List Nat × BranchedSsts × List (Nat × Int) :=
  let old := v.currentVersion
  let newVersionId := old.id + 1
  let tableStatsChange := sstables.foldl (fun acc e => addTableStats acc e.tableStats) []
  let rb :=
    retainAndBranchSsts compactionGroups compactionGroupIndex sstables v.branchedSsts
  let allSsts := rb.1 ++ rb.2.1
  let sorted := stableSortBy (fun e => e.compactionGroupId) allSsts
  let chunks := (chunkByKey (fun e => e.compactionGroupId) sorted).map
    (fun p => (p.1, p.2.map (fun e => e.sstInfo)))
  let cg := commitGroupSsts epoch chunks [] old.levels
  let delta : HummockVersionDelta :=
    { id := newVersionId
      prevId := old.id
      groupDeltas := cg.2.1
      maxCommittedEpoch := epoch
      safeEpoch := old.safeEpoch
      trivialMove := false
      gcSstIds := [] }
  let newVersion : HummockVersion :=
    { id := newVersionId
      levels := cg.2.2
      maxCommittedEpoch := epoch
      safeEpoch := old.safeEpoch }
  let stats' := purgeTableStats (addTableStats v.versionStats tableStatsChange) newVersion
  (delta, newVersion, cg.1, rb.2.2, stats')

/-- `commit_epoch`: no-op behind the disable flag; sanity check (modelled
from the spec: the caller must ensure `epoch > max_committed_epoch`,
enforced by `commit_epoch_sanity_check` in `manager/context.rs`, not among
the provided sources); then the core construction, committed to the store
and, only on success, to memory, finally swapping `latest_snapshot` to
`{epoch, epoch}`. -/
def commitEpoch (epoch : Nat) (sstables : List ExtendedSstableInfo)
    (compactionGroups : List (Nat × List Nat)) (compactionGroupIndex : List (Nat × Nat))
    (storeOk : Bool) (s : ManagerState) :
    Except Unit (Option HummockSnapshot) × ManagerState :=
  if s.versioning.disableCommitEpochs then (Except.ok none, s)
  else if ¬(s.versioning.currentVersion.maxCommittedEpoch < epoch) then (Except.error (), s)
  else
    let core :=
      commitEpochCore epoch sstables compactionGroups compactionGroupIndex s.versioning
    if ¬storeOk then (Except.error (), s)
    else
      (Except.ok (some ⟨epoch, epoch⟩),
        { s with
          versioning :=
            { currentVersion := core.2.1
              hummockVersionDeltas :=
                alInsert s.versioning.hummockVersionDeltas core.1.id core.1
              branchedSsts := core.2.2.2.1
              versionStats := core.2.2.2.2
              pinnedSnapshots := s.versioning.pinnedSnapshots
              disableCommitEpochs := s.versioning.disableCommitEpochs }
          latestSnapshot := ⟨epoch, epoch⟩ })

/-! ## Snapshot pinning (from `manager/mod.rs`). -/

/-- `pin_specific_snapshot`: pin `min(epoch, committed)` for the context,
but only when the context holds no pin yet (`INVALID_EPOCH`); always
returns the latest snapshot. -/
def pinSpecificSnapshot (contextId epoch : Nat) (storeOk : Bool) (s : ManagerState) :
    Except Unit HummockSnapshot × ManagerState :=
  let snapshot := s.latestSnapshot
  let entry := (alLookup s.versioning.pinnedSnapshots contextId).getD
    ⟨contextId, INVALID_EPOCH⟩
  let epochToPin := min epoch snapshot.committedEpoch
  if entry.minimalPinnedSnapshot = INVALID_EPOCH then
    if ¬storeOk then (Except.error (), s)
    else
      (Except.ok snapshot,
        { s with
          versioning :=
            { s.versioning with
              pinnedSnapshots :=
                alInsert s.versioning.pinnedSnapshots contextId
                  { entry with minimalPinnedSnapshot := epochToPin } } })
  else (Except.ok snapshot, s)

/-- `pin_snapshot`: pin the latest committed epoch for the context when it
holds no pin yet; always returns the latest snapshot. -/
def pinSnapshot (contextId : Nat) (storeOk : Bool) (s : ManagerState) :
    Except Unit HummockSnapshot × ManagerState :=
  let snapshot := s.latestSnapshot
  let entry := (alLookup s.versioning.pinnedSnapshots contextId).getD
    ⟨contextId, INVALID_EPOCH⟩
  if entry.minimalPinnedSnapshot = INVALID_EPOCH then
    if ¬storeOk then (Except.error (), s)
    else
      (Except.ok snapshot,
        { s with
          versioning :=
            { s.versioning with
              pinnedSnapshots :=
                alInsert s.versioning.pinnedSnapshots contextId
                  { entry with minimalPinnedSnapshot := snapshot.committedEpoch } } })
  else (Except.ok snapshot, s)

/-- `unpin_snapshot`: drop the context's pin when present. -/
def unpinSnapshot (contextId : Nat) (storeOk : Bool) (s : ManagerState) :
    Except Unit Unit × ManagerState :=
  if (alLookup s.versioning.pinnedSnapshots contextId).isSome then
    if ¬storeOk then (Except.error (), s)
    else
      (Except.ok (),
        { s with
          versioning :=
            { s.versioning with
              pinnedSnapshots :=
                alErase s.versioning.pinnedSnapshots contextId } })
  else (Except.ok (), s)

/-! ## `sync_group` (from `manager/mod.rs`). -/

/-- `CompactionGroup` metadata, projected to the fields `sync_group` reads
(parent id, member tables, the config's max level). -/
structure CompactionGroupInfo where
  parentGroupId : Nat
  memberTableIds : List Nat
  maxLevel : Nat
  deriving DecidableEq, Repr

/-- Modelled from the spec: `build_initial_levels`
(`hummock_version_ext`, not among the provided sources) builds an initial
L0 plus empty non-overlapping levels `1..=max_level`. -/
def buildInitialLevels (maxLevel : Nat) : Levels :=
  { l0 := some ⟨[]⟩
    levels := (List.range maxLevel).map (fun i => ⟨i + 1, LevelType.nonoverlapping, [], 0⟩) }

/-- The destroy loop body of `sync_group` over L0 sublevels: removal deltas
keyed by each sublevel id, dropping branched entries into `gc_sst_ids`. -/
def destroySubLevels (groupId : Nat) :
    List Level → BranchedSsts → List GroupDelta × List Nat × BranchedSsts
  | [], b => ([], [], b)
  | sl :: rest, b =>
    let rl := removeLevelSsts groupId false sl.tableInfos b
    let gd := GroupDelta.intraLevel ⟨sl.levelIdx, sl.subLevelId, [], rl.1⟩
    let rec' := destroySubLevels groupId rest rl.2.2
    (gd :: rec'.1, rl.2.1 ++ rec'.2.1, rec'.2.2)

/-- The destroy loop body of `sync_group` over the non-L0 levels. -/
def destroyLevels (groupId : Nat) :
    List Level → BranchedSsts → List GroupDelta × List Nat × BranchedSsts
  | [], b => ([], [], b)
  | lvl :: rest, b =>
    let rl := removeLevelSsts groupId false lvl.tableInfos b
    let gd := GroupDelta.intraLevel ⟨lvl.levelIdx, 0, [], rl.1⟩
    let rec' := destroyLevels groupId rest rl.2.2
    (gd :: rec'.1, rl.2.1 ++ rec'.2.1, rec'.2.2)

/-- One destroyed group: removal deltas for all its ssts, a `GroupDestroy`
delta, and the accumulated gc ids. -/
def destroyGroup (groupId : Nat) (L : Levels) (b : BranchedSsts) :
    List GroupDelta × List Nat × BranchedSsts :=
  let d0 :=
    match L.l0 with
    | some o => destroySubLevels groupId o.subLevels b
    | none => ([], [], b)
  let d1 := destroyLevels groupId L.levels d0.2.2
  (d0.1 ++ d1.1 ++ [GroupDelta.groupDestroy], d0.2.1 ++ d1.2.1, d1.2.2)

/-- The destroy pass of `sync_group`: every group of the old version absent
from the declared groups is destroyed. -/
def syncDestroyGroups (compactionGroups : List (Nat × CompactionGroupInfo)) :
    List Nat → List (Nat × GroupDeltas) → List Nat → List (Nat × Levels) → BranchedSsts →
    List (Nat × GroupDeltas) × List Nat × List (Nat × Levels) × BranchedSsts
  | [], gds, gcs, lvls, b => (gds, gcs, lvls, b)
  | g :: rest, gds, gcs, lvls, b =>
    if (alLookup compactionGroups g).isSome then
      syncDestroyGroups compactionGroups rest gds gcs lvls b
    else
      match alLookup lvls g with
      | some L =>
        let dg := destroyGroup g L b
        let gds1 := dg.1.foldl (fun acc gd => alPushGroupDelta acc g gd) gds
        syncDestroyGroups compactionGroups rest gds1 (gcs ++ dg.2.1) (alErase lvls g) dg.2.2
      | none => syncDestroyGroups compactionGroups rest gds gcs lvls b

/-- Modelled from the spec: `init_with_parent_group`
(`hummock_version_ext`, not among the provided sources) branches every
parent-group sst whose table set intersects the new member set, returning
(sst id, incremented divide version, level idx) triples. -/
def groupSplitIdVers (lvls : List (Nat × Levels)) (parentGroupId : Nat)
    (memberTableIds : List Nat) : List (Nat × Nat × Nat) :=
  match alLookup lvls parentGroupId with
  | none => []
  | some L =>
    let pick := fun (lvl : Level) =>
      (lvl.tableInfos.filter (fun s => s.tableIds.any (fun t => t ∈ memberTableIds))).map
        (fun s => (s.id, s.divideVersion + 1, lvl.levelIdx))
    (match L.l0 with
     | some o => o.subLevels.flatMap pick
     | none => []) ++ L.levels.flatMap pick

/-- Pending tasks of the parent group touching a split sst are collected for
cancellation. -/
def splitTasksToCancel (compactionStatuses : Option (List (Nat × CompactStatus)))
    (parentGroupId : Nat) (splitIdVers : List (Nat × Nat × Nat)) : List Nat :=
  match compactionStatuses with
  | none => []
  | some statuses =>
    match alLookup statuses parentGroupId with
    | none => []
    | some parentStatus =>
      splitIdVers.filterMap (fun p =>
        match parentStatus.levelHandlers.get? p.2.2 with
        | some handler => handler.pendingTaskIdBySst p.1
        | none => none)

/-- The branched-sst bookkeeping after a split (`manager/mod.rs` lines
1628..1641): bump the parent's divide version and record the child. -/
def recordSplitBranches (parentGroupId groupId : Nat) (splitIdVers : List (Nat × Nat × Nat))
    (b : BranchedSsts) : BranchedSsts :=
  splitIdVers.foldl
    (fun acc p =>
      match alLookup acc p.1 with
      | some _ =>
        alUpdate acc p.1 (fun entry =>
          alInsert (alUpdate entry parentGroupId (fun dv => dv + 1)) groupId p.2.1)
      | none => alInsert acc p.1 [(parentGroupId, p.2.1), (groupId, p.2.1)])
    b

/-- The construct pass of `sync_group`: every declared group absent from the
version is constructed, branching the parent's overlapping ssts. -/
def syncConstructGroups (compactionStatuses : Option (List (Nat × CompactStatus))) :
    List (Nat × CompactionGroupInfo) → List (Nat × GroupDeltas) → List (Nat × Levels) →
    BranchedSsts → List Nat →
    List (Nat × GroupDeltas) × List (Nat × Levels) × BranchedSsts × List Nat
  | [], gds, lvls, b, cancels => (gds, lvls, b, cancels)
  | (g, info) :: rest, gds, lvls, b, cancels =>
    if (alLookup lvls g).isSome then
      syncConstructGroups compactionStatuses rest gds lvls b cancels
    else
      let lvls1 := alInsert lvls g (buildInitialLevels info.maxLevel)
      let gds1 := alPushGroupDelta gds g
        (GroupDelta.groupConstruct info.parentGroupId info.memberTableIds)
      let splitIdVers := groupSplitIdVers lvls1 info.parentGroupId info.memberTableIds
      let cancels1 :=
        cancels ++ splitTasksToCancel compactionStatuses info.parentGroupId splitIdVers
      let b1 := recordSplitBranches info.parentGroupId g splitIdVers b
      syncConstructGroups compactionStatuses rest gds1 lvls1 b1 cancels1

/-- Sorted deduplication of the cancel list (`sort` + `dedup`). -/
def sortDedup (l : List Nat) : List Nat :=
  (stableSortBy id l).foldr
    (fun x acc =>
      match acc with
      | [] => [x]
      | y :: _ => if x = y then acc else x :: acc)
    []

/-- `sync_group`: reconcile the current version's groups with the declared
compaction groups. When they already agree, the prepared (uncommitted)
delta is handed back to the caller and nothing changes; otherwise destroy
and construct deltas are committed, the version is replaced
(`id = old.id + 1`) and the pending tasks on split ssts are returned for
cancellation. -/
def syncGroup (compactionStatuses : Option (List (Nat × CompactStatus)))
    (compactionGroups : List (Nat × CompactionGroupInfo)) (storeOk : Bool)
    (v : Versioning) :
    Except Unit (Option (Nat × HummockVersionDelta × HummockVersion)) × Versioning × List Nat :=
  let old := v.currentVersion
  let oldVersionGroups := old.levels.map (fun p => p.1)
  let newVersionId := old.id + 1
  let baseDelta : HummockVersionDelta :=
    { id := newVersionId
      prevId := old.id
      groupDeltas := []
      maxCommittedEpoch := 0
      safeEpoch := old.safeEpoch
      trivialMove := false
      gcSstIds := [] }
  if oldVersionGroups.all (fun g => (alLookup compactionGroups g).isSome) ∧
      (compactionGroups.map (fun p => p.1)).all (fun g => (alLookup old.levels g).isSome) then
    (Except.ok (some (newVersionId, baseDelta, { old with id := newVersionId })), v, [])
  else
    let sd :=
      syncDestroyGroups compactionGroups oldVersionGroups [] [] old.levels v.branchedSsts
    let sc :=
      syncConstructGroups compactionStatuses compactionGroups sd.1 sd.2.2.1 sd.2.2.2 []
    let newVersion : HummockVersion := { old with id := newVersionId, levels := sc.2.1 }
    let delta : HummockVersionDelta :=
      { baseDelta with
        groupDeltas := sc.1
        gcSstIds := sd.2.1
        maxCommittedEpoch := newVersion.maxCommittedEpoch }
    if ¬storeOk then (Except.error (), v, [])
    else
      (Except.ok none,
        { v with
          currentVersion := newVersion
          hummockVersionDeltas := alInsert v.hummockVersionDeltas newVersionId delta
          branchedSsts := sc.2.2.1 },
        sortDedup sc.2.2.2)

/-! ## `get_compact_task_impl` / `get_compact_task` (from `manager/mod.rs`
and `CompactStatus::get_compact_task` from `compaction/mod.rs`).

The level selector (`level_selector.rs`, not among the provided sources) is
a trait object; its pick is passed in as an oracle value
(`Option CompactionTask`). Modelled from the spec: a successful pick adds
the chosen input to the affected level handlers as a pending task. -/

/-- `HummockEpoch::MAX`, the placeholder watermark in a freshly built task. -/
def HummockEpochMax : Nat := 2 ^ 64 - 1

/-- `CompactStatus::get_compact_task`: run the selector (its outcome passed
as `picked`), lock the chosen input in the level handlers, and build the
`CompactTask` descriptor (status Pending, watermark placeholder,
`gc_delete_keys` iff the target is the bottom level). -/
def CompactStatus.getCompactTask (cs : CompactStatus) (picked : Option CompactionTask)
    (taskId compactionGroupId : Nat) : Option (CompactTask × CompactStatus) :=
  match picked with
  | none => none
  | some ret =>
    let handlers' := ret.input.inputLevels.foldl
      (fun hs lvl => listModify hs lvl.levelIdx
        (fun h => h.addPendingTask taskId ret.input.targetLevel lvl.tableInfos))
      cs.levelHandlers
    let task : CompactTask :=
      { taskId := taskId
        inputSsts := ret.input.inputLevels
        targetLevel := ret.input.targetLevel
        targetSubLevelId := ret.input.targetSubLevelId
        sortedOutputSsts := []
        watermark := HummockEpochMax
        taskStatus := TaskStatus.pending
        compactionGroupId := compactionGroupId
        taskType := ret.compactionTaskType
        gcDeleteKeys := decide (ret.input.targetLevel = cs.levelHandlers.length - 1)
        existingTableIds := [] }
    some (task, { cs with levelHandlers := handlers' })

/-- Record a selector in the per-group cache (`fetch_selector` inserts a new
selector for the task type when none is cached). -/
def cacheSelector (selectors : List (Nat × List TaskType)) (groupId : Nat)
    (taskType : TaskType) : List (Nat × List TaskType) :=
  match alLookup selectors groupId with
  | some cached =>
    if taskType ∈ cached then selectors
    else alUpdate selectors groupId (fun l => l ++ [taskType])
  | none => alInsert selectors groupId [taskType]

/-- `get_compact_task_impl`. `picked` is the selector oracle; `taskId` the
freshly generated id; `allTableIds` the catalog tables. The source performs
two serial metastore transactions: `precheck_compaction_group` commits a
fresh `CompactStatus` (to the store and, on success, to memory) when the
group has none yet, and the later `commit_multi_var` commits the task (the
updated compact status on the non-trivial path, the report's transaction on
the trivial-move path). They are modelled by two independent outcome flags,
`storeOkPrecheck` and `storeOk`, so the partial failure — precheck
committed, later transaction failed — is representable. On a trivial move
under a Dynamic selector the task is completed inline through
`report_compact_task_impl`; otherwise the updated compact status is
committed and the Pending task returned. -/
def getCompactTaskImpl (compactionGroupId : Nat) (taskType : TaskType)
    (picked : Option CompactionTask) (taskId : Nat)
    (compactionGroups : List (Nat × CompactionGroupInfo)) (allTableIds : List Nat)
    (registeredGroups : List Nat) (storeOkPrecheck storeOk : Bool)
    (deterministicMode : Bool)
    (s : ManagerState) : Except Unit (Option CompactTask) × ManagerState :=
  match alLookup compactionGroups compactionGroupId with
  | none => (Except.error (), s)
  | some groupConfig =>
    -- `precheck_compaction_group`: install a fresh compact status when absent,
    -- in its own store transaction.
    let needPrecheck := (alLookup s.compaction.compactionStatuses compactionGroupId).isNone
    if needPrecheck ∧ ¬storeOkPrecheck then (Except.error (), s)
    else
      let s1 :=
        if needPrecheck then
          { s with compaction :=
              { s.compaction with
                compactionStatuses :=
                  alInsert s.compaction.compactionStatuses compactionGroupId
                    (CompactStatus.new compactionGroupId groupConfig.maxLevel) } }
        else s
      match alLookup s1.compaction.compactionStatuses compactionGroupId with
      | none => (Except.ok none, s1)
      | some compactStatus =>
        let current := s1.versioning.currentVersion
        let watermark := s1.versioning.pinnedSnapshots.foldl
          (fun acc p => min acc p.2.minimalPinnedSnapshot) current.maxCommittedEpoch
        if (alLookup current.levels compactionGroupId).isNone then (Except.ok none, s1)
        else
          let canTrivialMove := taskType = TaskType.dynamic
          let s2 :=
            { s1 with compaction :=
                { s1.compaction with
                  compactionSelectors :=
                    cacheSelector s1.compaction.compactionSelectors compactionGroupId
                      taskType } }
          match compactStatus.getCompactTask picked taskId compactionGroupId with
          | none => (Except.ok none, s2)
          | some (task0, compactStatusStaged) =>
            let task1 := { task0 with watermark := watermark }
            if CompactStatus.isTrivialMoveTask task1 ∧ canTrivialMove then
              let task2 :=
                { task1 with
                  sortedOutputSsts :=
                    match task1.inputSsts with
                    | lvl :: _ => lvl.tableInfos
                    | [] => []
                  taskStatus := TaskStatus.success }
              let rep :=
                reportCompactTaskImpl none task2 registeredGroups none storeOk
                  deterministicMode s2
              (match rep.1 with
               | Except.error e => Except.error e
               | Except.ok _ => Except.ok (some rep.2.1), rep.2.2)
            else
              let existing := (task1.inputSsts.flatMap
                (fun lvl => lvl.tableInfos.flatMap (fun sst => sst.tableIds))).dedup.filter
                (fun t => t ∈ allTableIds)
              let task2 := { task1 with existingTableIds := existing }
              if ¬storeOk then (Except.error (), s2)
              else
                let s3 :=
                  { s2 with compaction :=
                      { s2.compaction with
                        compactionStatuses :=
                          alInsert s2.compaction.compactionStatuses compactionGroupId
                            compactStatusStaged } }
                (Except.ok (some { task2 with taskStatus := TaskStatus.pending }), s3)

/-- `get_compact_task`: loop `get_compact_task_impl` until it yields a
Pending task or nothing; trivial-move completions are consumed inside the
loop. Each iteration consumes one (selector outcome, task id) pair. -/
def getCompactTask (compactionGroupId : Nat) (taskType : TaskType)
    (compactionGroups : List (Nat × CompactionGroupInfo)) (allTableIds : List Nat)
    (registeredGroups : List Nat) (storeOkPrecheck storeOk : Bool)
    (deterministicMode : Bool) :
    List (Option CompactionTask × Nat) → ManagerState →
    Except Unit (Option CompactTask) × ManagerState
  | [], s => (Except.ok none, s)
  | (picked, taskId) :: rest, s =>
    match getCompactTaskImpl compactionGroupId taskType picked taskId compactionGroups
      allTableIds registeredGroups storeOkPrecheck storeOk deterministicMode s with
    | (Except.error e, s') => (Except.error e, s')
    | (Except.ok none, s') => (Except.ok none, s')
    | (Except.ok (some task), s') =>
      if task.taskStatus = TaskStatus.pending then (Except.ok (some task), s')
      else
        getCompactTask compactionGroupId taskType compactionGroups allTableIds
          registeredGroups storeOkPrecheck storeOk deterministicMode rest s'

/-- Witness for C7 at a concrete configuration. -/
theorem create_compaction_task_file_size_and_compression_witness :
    (create_compaction_task
        ⟨32, ["none", "none", "Lz4", "Zstd"], 6⟩
        ⟨[], 3, 0⟩ 1 TaskType.dynamic).targetFileSize = 64 ∧
    (create_compaction_task
        ⟨32, ["none", "none", "Lz4", "Zstd"], 6⟩
        ⟨[], 3, 0⟩ 1 TaskType.dynamic).compressionAlgorithm = "Zstd" := by
  have h := create_compaction_task_file_size_and_compression
    ⟨32, ["none", "none", "Lz4", "Zstd"], 6⟩ ⟨[], 3, 0⟩ 1 TaskType.dynamic
    (by decide) (by decide) (by decide)
  have h3 := h.1 (by decide)
  exact ⟨h3.1, h3.2⟩

/-! ## Further association-list lemmas used by the manager proofs. -/

theorem alLookup_alUpdate_self {α : Type} (m : List (Nat × α)) (k : Nat) (f : α → α) :
    alLookup (alUpdate m k f) k = (alLookup m k).map f := by
  induction m with
  | nil => simp [alUpdate, alLookup]
  | cons hd tl ih =>
    obtain ⟨k1, v1⟩ := hd
    by_cases hh : k1 = k
    · simp [alUpdate, alLookup, hh]
    · simp [alUpdate, alLookup, hh, ih]

theorem alErase_eq_of_lookup_none {α : Type} (m : List (Nat × α)) (k : Nat)
    (h : alLookup m k = none) : alErase m k = m := by
  induction m with
  | nil => simp [alErase]
  | cons hd tl ih =>
    obtain ⟨k1, v1⟩ := hd
    by_cases hh : k1 = k
    · simp [alLookup, hh] at h
    · simp only [alLookup, hh, if_neg] at h
      simp [alErase, hh, ih h]

theorem alLookup_eq_none_of_not_key {α : Type} (m : List (Nat × α)) (g : Nat)
    (h : g ∉ m.map (fun p => p.1)) : alLookup m g = none := by
  induction m with
  | nil => simp [alLookup]
  | cons hd tl ih =>
    obtain ⟨k1, v1⟩ := hd
    have h1 : k1 ≠ g := by
      intro he
      exact h (by simp [he])
    have h2 : g ∉ tl.map (fun p => p.1) := by
      intro hm
      exact h (by simp [hm])
    simp [alLookup, h1, ih h2]

instance {ε α : Type} [DecidableEq ε] [DecidableEq α] : DecidableEq (Except ε α)
  | Except.error a, Except.error b =>
    if h : a = b then Decidable.isTrue (by rw [h])
    else Decidable.isFalse (by intro he; cases he; exact h rfl)
  | Except.error _, Except.ok _ => Decidable.isFalse (by intro h; cases h)
  | Except.ok _, Except.error _ => Decidable.isFalse (by intro h; cases h)
  | Except.ok a, Except.ok b =>
    if h : a = b then Decidable.isTrue (by rw [h])
    else Decidable.isFalse (by intro he; cases he; exact h rfl)

/-! ## Sample fixtures used by witnesses and counterexamples. -/

def sampleInput : InputLevel := ⟨0, LevelType.nonoverlapping, [⟨7, [1], 0⟩]⟩

def sampleTask : CompactTask :=
  ⟨5, [sampleInput], 1, 0, [⟨8, [1], 0⟩], 4, TaskStatus.success, 2, TaskType.dynamic, false, []⟩

def sampleLevels : Levels :=
  ⟨some ⟨[⟨0, LevelType.overlapping, [⟨7, [1], 0⟩], 10⟩]⟩, [⟨1, LevelType.nonoverlapping, [], 0⟩]⟩

def sampleVersion : HummockVersion := ⟨10, [(2, sampleLevels)], 20, 0⟩

def sampleVersioning : Versioning := ⟨sampleVersion, [], [], [], [], false⟩

def sampleState : ManagerState :=
  ⟨⟨[(2, CompactStatus.new 2 2)], [(5, ⟨sampleTask, 3⟩)], []⟩, sampleVersioning, ⟨20, 20⟩⟩

/-- A state where input sst 7 has been branched away from group 2, so any
Success report of `sampleTask` is expired. -/
def sampleStateExpired : ManagerState :=
  { sampleState with
    versioning := { sampleVersioning with branchedSsts := [(7, [(3, 1)])] } }

/-! ## Claim C6: wrong or missing reporter. -/

/-- Claim C6: for every `report_compact_task(ctx, task, stats)` with a
context id given, if no assignment exists for the task id or the recorded
assignee differs from ctx, the call returns `false` and compact statuses,
assignments, versioning state and the latest snapshot are unchanged. -/
theorem report_wrong_reporter_no_state_change
    (contextId : Nat) (task : CompactTask) (registeredGroups : List Nat)
    (tableStatsChange : Option (List (Nat × Int))) (storeOk deterministicMode : Bool)
    (s : ManagerState)
    (h : (alLookup s.compaction.compactTaskAssignment task.taskId).map
        (fun a => a.contextId) ≠ some contextId) :
    (reportCompactTaskImpl (some contextId) task registeredGroups tableStatsChange
        storeOk deterministicMode s).1 = Except.ok false ∧
    (reportCompactTaskImpl (some contextId) task registeredGroups tableStatsChange
        storeOk deterministicMode s).2.2.compaction.compactionStatuses =
      s.compaction.compactionStatuses ∧
    (reportCompactTaskImpl (some contextId) task registeredGroups tableStatsChange
        storeOk deterministicMode s).2.2.compaction.compactTaskAssignment =
      s.compaction.compactTaskAssignment ∧
    (reportCompactTaskImpl (some contextId) task registeredGroups tableStatsChange
        storeOk deterministicMode s).2.2.versioning = s.versioning ∧
    (reportCompactTaskImpl (some contextId) task registeredGroups tableStatsChange
        storeOk deterministicMode s).2.2.latestSnapshot = s.latestSnapshot := by
  have hv : reportValidationOk (some contextId)
      ((alLookup s.compaction.compactTaskAssignment task.taskId).map
        (fun a => a.contextId)) = false := by
    cases hA : alLookup s.compaction.compactTaskAssignment task.taskId with
    | none => simp [reportValidationOk]
    | some a =>
      have hne : a.contextId ≠ contextId := by
        intro he
        exact h (by simp [hA, he])
      simp [reportValidationOk, hne]
  simp [reportCompactTaskImpl, hv]

/-- Witness for C6 at a concrete state: reporter 4 is not assignee 3. -/
theorem report_wrong_reporter_witness :
    (reportCompactTaskImpl (some 4) sampleTask [2] none true false sampleState).1 =
      Except.ok false :=
  (report_wrong_reporter_no_state_change 4 sampleTask [2] none true false sampleState
    (by decide)).1

/-! ## Claim C4: expired Success reports. -/

/-- Claim C4: a report of a task with status Success whose group vanished
from the current version or whose input ssts were branched past the
dispatched divide version is forcibly marked `InvalidGroupCanceled`; the
report is still accepted (`true` is returned) and the versioning state
(version, delta log, branched ssts, stats) is untouched. -/
theorem report_expired_success_forced_invalid
    (contextId : Option Nat) (task : CompactTask) (registeredGroups : List Nat)
    (tableStatsChange : Option (List (Nat × Int))) (deterministicMode : Bool)
    (s : ManagerState)
    (hv : reportValidationOk contextId
        ((alLookup s.compaction.compactTaskAssignment task.taskId).map
          (fun a => a.contextId)) = true)
    (hs : task.taskStatus = TaskStatus.success)
    (hexp : ((alLookup s.versioning.currentVersion.levels task.compactionGroupId).isNone
        || isCompactTaskExpired task s.versioning.branchedSsts) = true) :
    (reportCompactTaskImpl contextId task registeredGroups tableStatsChange
        true deterministicMode s).1 = Except.ok true ∧
    (reportCompactTaskImpl contextId task registeredGroups tableStatsChange
        true deterministicMode s).2.1.taskStatus = TaskStatus.invalidGroupCanceled ∧
    (reportCompactTaskImpl contextId task registeredGroups tableStatsChange
        true deterministicMode s).2.2.versioning = s.versioning := by
  cases hst : alLookup
      (alEraseAll s.compaction.compactionStatuses
        (purgeKeysOf s.compaction.compactionStatuses registeredGroups))
      task.compactionGroupId with
  | none => simp [reportCompactTaskImpl, hv, hst, hs]
  | some cs => simp [reportCompactTaskImpl, hv, hst, hs, hexp]

/-- Witness for C4: sst 7 of `sampleTask` is branched away from group 2. -/
theorem report_expired_success_forced_invalid_witness :
    (reportCompactTaskImpl (some 3) sampleTask [2] none true false
        sampleStateExpired).2.1.taskStatus = TaskStatus.invalidGroupCanceled :=
  (report_expired_success_forced_invalid (some 3) sampleTask [2] none false
    sampleStateExpired (by decide) (by decide) (by decide)).2.1

/-! ## Claim C8: snapshot pinning. -/

/-- A state in which context 1 already pins epoch 5. -/
def samplePinState : ManagerState :=
  ⟨⟨[], [], []⟩, ⟨sampleVersion, [], [], [], [(1, ⟨1, 5⟩)], false⟩, ⟨10, 10⟩⟩

/-- Claim C8 counterexample: `pin_specific_snapshot(1, 3)` on a context
already pinning 5 does not record `min(3, 10) = 3`; the existing pin stays
at 5 while the call still returns the latest snapshot. -/
theorem pin_specific_snapshot_counterexample :
    (alLookup (pinSpecificSnapshot 1 3 true samplePinState).2.versioning.pinnedSnapshots
        1).map (fun e => e.minimalPinnedSnapshot) = some 5 ∧
    min 3 samplePinState.latestSnapshot.committedEpoch = 3 ∧
    (pinSpecificSnapshot 1 3 true samplePinState).1 =
      Except.ok ⟨10, 10⟩ := by decide

/-- Claim C8 (amended): `pin_specific_snapshot(ctx, epoch)` (resp.
`pin_snapshot(ctx)`) records `minimal_pinned_snapshot =
min(epoch, committed)` (resp. the committed epoch) only when the context
holds no pin yet (`INVALID_EPOCH`); an existing pin is left unchanged.
Either way the call returns the latest snapshot
`{committed_epoch, current_epoch}`. -/
theorem pin_snapshot_records_min_when_unpinned
    (contextId epoch : Nat) (s : ManagerState) :
    ((pinSpecificSnapshot contextId epoch true s).1 = Except.ok s.latestSnapshot ∧
     (((alLookup s.versioning.pinnedSnapshots contextId).getD
          ⟨contextId, INVALID_EPOCH⟩).minimalPinnedSnapshot = INVALID_EPOCH →
       alLookup (pinSpecificSnapshot contextId epoch true s).2.versioning.pinnedSnapshots
           contextId =
         some { (alLookup s.versioning.pinnedSnapshots contextId).getD
              ⟨contextId, INVALID_EPOCH⟩ with
            minimalPinnedSnapshot := min epoch s.latestSnapshot.committedEpoch }) ∧
     (((alLookup s.versioning.pinnedSnapshots contextId).getD
          ⟨contextId, INVALID_EPOCH⟩).minimalPinnedSnapshot ≠ INVALID_EPOCH →
       (pinSpecificSnapshot contextId epoch true s).2 = s)) ∧
    ((pinSnapshot contextId true s).1 = Except.ok s.latestSnapshot ∧
     (((alLookup s.versioning.pinnedSnapshots contextId).getD
          ⟨contextId, INVALID_EPOCH⟩).minimalPinnedSnapshot = INVALID_EPOCH →
       alLookup (pinSnapshot contextId true s).2.versioning.pinnedSnapshots contextId =
         some { (alLookup s.versioning.pinnedSnapshots contextId).getD
              ⟨contextId, INVALID_EPOCH⟩ with
            minimalPinnedSnapshot := s.latestSnapshot.committedEpoch }) ∧
     (((alLookup s.versioning.pinnedSnapshots contextId).getD
          ⟨contextId, INVALID_EPOCH⟩).minimalPinnedSnapshot ≠ INVALID_EPOCH →
       (pinSnapshot contextId true s).2 = s)) := by
  by_cases h0 : ((alLookup s.versioning.pinnedSnapshots contextId).getD
      ⟨contextId, INVALID_EPOCH⟩).minimalPinnedSnapshot = INVALID_EPOCH
  · simp [pinSpecificSnapshot, pinSnapshot, h0, alLookup_alInsert_self]
  · simp [pinSpecificSnapshot, pinSnapshot, h0]

/-- Witness for C8 (amended): a fresh context 2 records `min(7, 10) = 7`. -/
theorem pin_snapshot_records_min_when_unpinned_witness :
    alLookup (pinSpecificSnapshot 2 7 true samplePinState).2.versioning.pinnedSnapshots 2 =
      some ⟨2, 7⟩ := by
  have h := (pin_snapshot_records_min_when_unpinned 2 7 samplePinState).1.2.1 (by decide)
  simpa using h

/-! ## Lemmas about `gen_version_delta`. -/

theorem removeLevelSsts_fst (g : Nat) (t : Bool) (ssts : List SstableInfo)
    (b : BranchedSsts) : (removeLevelSsts g t ssts b).1 = ssts.map (fun s => s.id) := by
  induction ssts generalizing b with
  | nil => simp [removeLevelSsts]
  | cons sst rest ih => simp [removeLevelSsts, ih]

theorem removeLevelSsts_trivial (g : Nat) (ssts : List SstableInfo) (b : BranchedSsts) :
    removeLevelSsts g true ssts b = (ssts.map (fun s => s.id), [], b) := by
  induction ssts generalizing b with
  | nil => simp [removeLevelSsts]
  | cons sst rest ih => simp [removeLevelSsts, ih]

/-- The removal deltas generated for the input levels: one
`IntraLevelDelta` per level, removing exactly that level's sst ids. -/
theorem genInputDeltas_fst (g : Nat) (t : Bool) (lvls : List InputLevel)
    (b : BranchedSsts) :
    (genInputDeltas g t lvls b).1 = lvls.map (fun lvl =>
      GroupDelta.intraLevel ⟨lvl.levelIdx, 0, [], lvl.tableInfos.map (fun s => s.id)⟩) := by
  induction lvls generalizing b with
  | nil => simp [genInputDeltas]
  | cons lvl rest ih => simp [genInputDeltas, removeLevelSsts_fst, ih]

/-- On a trivial move `drop_sst` is skipped entirely: no gc ids, branched
map unchanged. -/
theorem genInputDeltas_trivial (g : Nat) (lvls : List InputLevel) (b : BranchedSsts) :
    genInputDeltas g true lvls b = (lvls.map (fun lvl =>
      GroupDelta.intraLevel ⟨lvl.levelIdx, 0, [], lvl.tableInfos.map (fun s => s.id)⟩),
      [], b) := by
  induction lvls generalizing b with
  | nil => simp [genInputDeltas]
  | cons lvl rest ih => simp [genInputDeltas, removeLevelSsts_trivial, ih]

/-- Shape of the delta produced by `gen_version_delta`. -/
theorem genVersionDelta_spec (deltas : List (Nat × HummockVersionDelta))
    (b : BranchedSsts) (old : HummockVersion) (task : CompactTask)
    (t det : Bool) :
    (genVersionDelta deltas b old task t det).1.id = old.id + 1 ∧
    (genVersionDelta deltas b old task t det).1.prevId = old.id ∧
    (genVersionDelta deltas b old task t det).1.safeEpoch =
      max old.safeEpoch task.watermark ∧
    (genVersionDelta deltas b old task t det).1.maxCommittedEpoch =
      old.maxCommittedEpoch ∧
    (genVersionDelta deltas b old task t det).1.trivialMove = t ∧
    (genVersionDelta deltas b old task t det).1.groupDeltas =
      [(task.compactionGroupId,
        ⟨task.inputSsts.map (fun lvl =>
            GroupDelta.intraLevel ⟨lvl.levelIdx, 0, [], lvl.tableInfos.map (fun s => s.id)⟩)
          ++ [GroupDelta.intraLevel
              ⟨task.targetLevel, task.targetSubLevelId, task.sortedOutputSsts, []⟩]⟩)] ∧
    (genVersionDelta deltas b old task t det).2.1 =
      (if det then deltas
       else alInsert deltas (old.id + 1) (genVersionDelta deltas b old task t det).1) := by
  refine ⟨rfl, rfl, rfl, rfl, rfl, ?_, ?_⟩
  · simp [genVersionDelta, genInputDeltas_fst]
  · rfl

/-! ## Claim C5: successful, non-expired reports. -/

/-- Claim C5: a Success report that passes validation and is not expired
generates the version delta that removes exactly the input sst ids per
input level and inserts the sorted output at the target level keyed by the
target sub-level id, with `safe_epoch = max(old safe_epoch, watermark)`;
compact statuses, assignments, the delta log and version stats are all
committed in the same transaction, after which the delta is applied to the
in-memory current version. -/
theorem report_success_applies_delta
    (contextId : Option Nat) (task : CompactTask) (registeredGroups : List Nat)
    (change : List (Nat × Int)) (s : ManagerState) (cs : CompactStatus)
    (hv : reportValidationOk contextId
        ((alLookup s.compaction.compactTaskAssignment task.taskId).map
          (fun a => a.contextId)) = true)
    (hreg : task.compactionGroupId ∈ registeredGroups)
    (hcs : alLookup s.compaction.compactionStatuses task.compactionGroupId = some cs)
    (hs : task.taskStatus = TaskStatus.success)
    (hlev : (alLookup s.versioning.currentVersion.levels task.compactionGroupId).isSome
      = true)
    (hexp : isCompactTaskExpired task s.versioning.branchedSsts = false) :
    (reportCompactTaskImpl contextId task registeredGroups (some change) true false s).1 =
      Except.ok true ∧
    (genVersionDelta s.versioning.hummockVersionDeltas s.versioning.branchedSsts
        s.versioning.currentVersion task (CompactStatus.isTrivialMoveTask task) false).1.groupDeltas =
      [(task.compactionGroupId,
        ⟨task.inputSsts.map (fun lvl =>
            GroupDelta.intraLevel ⟨lvl.levelIdx, 0, [], lvl.tableInfos.map (fun s => s.id)⟩)
          ++ [GroupDelta.intraLevel
              ⟨task.targetLevel, task.targetSubLevelId, task.sortedOutputSsts, []⟩]⟩)] ∧
    (reportCompactTaskImpl contextId task registeredGroups (some change) true
        false s).2.2.versioning.hummockVersionDeltas =
      alInsert s.versioning.hummockVersionDeltas (s.versioning.currentVersion.id + 1)
        (genVersionDelta s.versioning.hummockVersionDeltas s.versioning.branchedSsts
          s.versioning.currentVersion task (CompactStatus.isTrivialMoveTask task) false).1 ∧
    (reportCompactTaskImpl contextId task registeredGroups (some change) true
        false s).2.2.versioning.currentVersion =
      s.versioning.currentVersion.applyDelta
        (genVersionDelta s.versioning.hummockVersionDeltas s.versioning.branchedSsts
          s.versioning.currentVersion task (CompactStatus.isTrivialMoveTask task) false).1 ∧
    (reportCompactTaskImpl contextId task registeredGroups (some change) true
        false s).2.2.versioning.currentVersion.safeEpoch =
      max s.versioning.currentVersion.safeEpoch task.watermark ∧
    (reportCompactTaskImpl contextId task registeredGroups (some change) true
        false s).2.2.versioning.versionStats =
      addTableStats s.versioning.versionStats change ∧
    (reportCompactTaskImpl contextId task registeredGroups (some change) true
        false s).2.2.compaction.compactionStatuses =
      alUpdate
        (alEraseAll s.compaction.compactionStatuses
          (purgeKeysOf s.compaction.compactionStatuses registeredGroups))
        task.compactionGroupId (fun c => c.reportCompactTask task) ∧
    (reportCompactTaskImpl contextId task registeredGroups (some change) true
        false s).2.2.compaction.compactTaskAssignment =
      alErase s.compaction.compactTaskAssignment task.taskId := by
  have hpk : task.compactionGroupId ∉
      purgeKeysOf s.compaction.compactionStatuses registeredGroups := by
    intro hmem
    rcases List.mem_filter.mp hmem with ⟨_, hdec⟩
    simp at hdec
    exact hdec hreg
  have hstag : alLookup
      (alEraseAll s.compaction.compactionStatuses
        (purgeKeysOf s.compaction.compactionStatuses registeredGroups))
      task.compactionGroupId = some cs := by
    rw [alLookup_alEraseAll_notMem _ _ _ hpk]
    exact hcs
  have hni : (alLookup s.versioning.currentVersion.levels task.compactionGroupId).isNone
      = false := by
    rcases Option.isSome_iff_exists.mp hlev with ⟨L, hL⟩
    simp [hL]
  refine ⟨?_, ?_, ?_, ?_, ?_, ?_, ?_, ?_⟩
  · simp [reportCompactTaskImpl, hv, hstag, hs, hni, hexp]
  · simp [genVersionDelta, genInputDeltas_fst]
  · simp [reportCompactTaskImpl, hv, hstag, hs, hni, hexp, genVersionDelta]
  · simp [reportCompactTaskImpl, hv, hstag, hs, hni, hexp]
  · simp [reportCompactTaskImpl, hv, hstag, hs, hni, hexp, HummockVersion.applyDelta,
      genVersionDelta]
  · simp [reportCompactTaskImpl, hv, hstag, hs, hni, hexp]
  · simp [reportCompactTaskImpl, hv, hstag, hs, hni, hexp]
  · simp [reportCompactTaskImpl, hv, hstag, hs, hni, hexp]

/-- Witness for C5: the concrete Success report on `sampleState` bumps
`safe_epoch` to `max(0, 4) = 4`. -/
theorem report_success_applies_delta_witness :
    (reportCompactTaskImpl (some 3) sampleTask [2] (some [(1, 3)]) true
        false sampleState).2.2.versioning.currentVersion.safeEpoch = 4 := by
  have h := (report_success_applies_delta (some 3) sampleTask [2] [(1, 3)] sampleState
    (CompactStatus.new 2 2) (by decide) (by decide) (by decide) (by decide) (by decide)
    (by decide)).2.2.2.2.1
  simpa using h

/-! ## Claim C10: the unregistered-group purge in `report_compact_task_impl`. -/

theorem alLookup_mem_keys {α : Type} (m : List (Nat × α)) (g : Nat) (v : α)
    (h : alLookup m g = some v) : g ∈ m.map (fun p => p.1) := by
  induction m with
  | nil => simp [alLookup] at h
  | cons hd tl ih =>
    obtain ⟨k1, v1⟩ := hd
    by_cases hh : k1 = g
    · simp [hh]
    · simp only [alLookup, hh, if_neg] at h
      simp [ih h]

/-- A state with a compact status and a cached selector for the
unregistered group 9. -/
def samplePurgeState : ManagerState :=
  ⟨⟨[(1, CompactStatus.new 1 2), (9, CompactStatus.new 9 1)], [],
    [(9, [TaskType.dynamic])]⟩, sampleVersioning, ⟨20, 20⟩⟩

/-- Claim C10 counterexample: a report that fails assignment validation
(returns `false`) does NOT remove the compact status of the unregistered
group 9 — the staged purge is dropped, so "every call ... removes the
compact status" is false as stated (the selector, by contrast, is purged
eagerly). -/
theorem report_purge_counterexample :
    (reportCompactTaskImpl (some 3) sampleTask [1] none true false samplePurgeState).1 =
      Except.ok false ∧
    alLookup (reportCompactTaskImpl (some 3) sampleTask [1] none true false
        samplePurgeState).2.2.compaction.compactionStatuses 9 =
      some (CompactStatus.new 9 1) ∧
    (9 : Nat) ∉ ([1] : List Nat) := by decide

/-- The compaction-lock fields committed by a validated report: the
selector cache is purged eagerly; the committed statuses are the staged
statuses, possibly with the task's own group updated. -/
theorem reportCompactTaskImpl_committed_fields
    (contextId : Option Nat) (task : CompactTask) (registeredGroups : List Nat)
    (tableStatsChange : Option (List (Nat × Int))) (deterministicMode : Bool)
    (s : ManagerState)
    (hv : reportValidationOk contextId
        ((alLookup s.compaction.compactTaskAssignment task.taskId).map
          (fun a => a.contextId)) = true) :
    (reportCompactTaskImpl contextId task registeredGroups tableStatsChange true
        deterministicMode s).2.2.compaction.compactionSelectors =
      alEraseAll s.compaction.compactionSelectors
        (purgeKeysOf s.compaction.compactionStatuses registeredGroups) ∧
    ((reportCompactTaskImpl contextId task registeredGroups tableStatsChange true
        deterministicMode s).2.2.compaction.compactionStatuses =
      alEraseAll s.compaction.compactionStatuses
        (purgeKeysOf s.compaction.compactionStatuses registeredGroups) ∨
     (reportCompactTaskImpl contextId task registeredGroups tableStatsChange true
        deterministicMode s).2.2.compaction.compactionStatuses =
      alUpdate
        (alEraseAll s.compaction.compactionStatuses
          (purgeKeysOf s.compaction.compactionStatuses registeredGroups))
        task.compactionGroupId (fun c => c.reportCompactTask task)) := by
  cases hst : alLookup
      (alEraseAll s.compaction.compactionStatuses
        (purgeKeysOf s.compaction.compactionStatuses registeredGroups))
      task.compactionGroupId with
  | none =>
    exact ⟨by simp [reportCompactTaskImpl, hv, hst],
      Or.inl (by simp [reportCompactTaskImpl, hv, hst])⟩
  | some cs =>
    by_cases h1 : task.taskStatus = TaskStatus.success
    · by_cases h2 : alLookup s.versioning.currentVersion.levels task.compactionGroupId
          = none ∨ isCompactTaskExpired task s.versioning.branchedSsts = true
      · rcases h2 with h2 | h2
        · exact ⟨by simp [reportCompactTaskImpl, hv, hst, h1, h2],
            Or.inr (by simp [reportCompactTaskImpl, hv, hst, h1, h2])⟩
        · exact ⟨by simp [reportCompactTaskImpl, hv, hst, h1, h2],
            Or.inr (by simp [reportCompactTaskImpl, hv, hst, h1, h2])⟩
      · exact ⟨by simp [reportCompactTaskImpl, hv, hst, h1, h2],
          Or.inr (by simp [reportCompactTaskImpl, hv, hst, h1, h2])⟩
    · exact ⟨by simp [reportCompactTaskImpl, hv, hst, h1],
        Or.inr (by simp [reportCompactTaskImpl, hv, hst, h1])⟩

/-- Claim C10 (amended): the eager part of the purge is only the selector
cache; the compact statuses of unregistered groups are removed only when
the report passes validation and commits. Precisely: for a validated
report that commits (`storeOk`), every group not registered in the
compaction group manager ends with no compact status, every such group
that had a compact status entry ends with no cached selector, and the
statuses and selectors of registered groups other than the task's own
group are unchanged. A call that fails validation purges only the selector
cache (see the counterexample). -/
theorem report_purge_frame
    (contextId : Option Nat) (task : CompactTask) (registeredGroups : List Nat)
    (tableStatsChange : Option (List (Nat × Int))) (deterministicMode : Bool)
    (s : ManagerState)
    (hv : reportValidationOk contextId
        ((alLookup s.compaction.compactTaskAssignment task.taskId).map
          (fun a => a.contextId)) = true) :
    (∀ g, g ∉ registeredGroups →
      alLookup (reportCompactTaskImpl contextId task registeredGroups tableStatsChange
          true deterministicMode s).2.2.compaction.compactionStatuses g = none) ∧
    (∀ g, g ∉ registeredGroups →
      (alLookup s.compaction.compactionStatuses g).isSome = true →
      alLookup (reportCompactTaskImpl contextId task registeredGroups tableStatsChange
          true deterministicMode s).2.2.compaction.compactionSelectors g = none) ∧
    (∀ g, g ∈ registeredGroups → g ≠ task.compactionGroupId →
      alLookup (reportCompactTaskImpl contextId task registeredGroups tableStatsChange
          true deterministicMode s).2.2.compaction.compactionStatuses g =
        alLookup s.compaction.compactionStatuses g ∧
      alLookup (reportCompactTaskImpl contextId task registeredGroups tableStatsChange
          true deterministicMode s).2.2.compaction.compactionSelectors g =
        alLookup s.compaction.compactionSelectors g) := by
  have hc := reportCompactTaskImpl_committed_fields contextId task registeredGroups
    tableStatsChange deterministicMode s hv
  have hstagedNone : ∀ g, g ∉ registeredGroups →
      alLookup (alEraseAll s.compaction.compactionStatuses
        (purgeKeysOf s.compaction.compactionStatuses registeredGroups)) g = none := by
    intro g hg
    by_cases hk : g ∈ purgeKeysOf s.compaction.compactionStatuses registeredGroups
    · exact alLookup_alEraseAll_mem _ _ _ hk
    · rw [alLookup_alEraseAll_notMem _ _ _ hk]
      apply alLookup_eq_none_of_not_key
      intro hmem
      exact hk (List.mem_filter.mpr ⟨hmem, by simpa using hg⟩)
  have hstagedKeep : ∀ g, g ∈ registeredGroups →
      alLookup (alEraseAll s.compaction.compactionStatuses
        (purgeKeysOf s.compaction.compactionStatuses registeredGroups)) g =
        alLookup s.compaction.compactionStatuses g := by
    intro g hg
    apply alLookup_alEraseAll_notMem
    intro hmem
    rcases List.mem_filter.mp hmem with ⟨_, hdec⟩
    simp at hdec
    exact hdec hg
  refine ⟨?_, ?_, ?_⟩
  · intro g hg
    rcases hc.2 with h | h
    · rw [h]
      exact hstagedNone g hg
    · rw [h]
      by_cases he : task.compactionGroupId = g
      · rw [he, alLookup_alUpdate_self, hstagedNone g hg]
        rfl
      · rw [alLookup_alUpdate_ne _ _ _ _ he]
        exact hstagedNone g hg
  · intro g hg hsome
    rw [hc.1]
    apply alLookup_alEraseAll_mem
    rcases Option.isSome_iff_exists.mp hsome with ⟨v, hval⟩
    exact List.mem_filter.mpr ⟨alLookup_mem_keys _ _ _ hval, by simpa using hg⟩
  · intro g hg hne
    constructor
    · rcases hc.2 with h | h
      · rw [h]
        exact hstagedKeep g hg
      · rw [h, alLookup_alUpdate_ne _ _ _ _ (Ne.symm hne)]
        exact hstagedKeep g hg
    · rw [hc.1]
      apply alLookup_alEraseAll_notMem
      intro hmem
      rcases List.mem_filter.mp hmem with ⟨_, hdec⟩
      simp at hdec
      exact hdec hg
  
/-- Witness for C10 (amended): a validated committing report on
`samplePurgeState` removes the compact status of unregistered group 9. -/
theorem report_purge_frame_witness :
    alLookup (reportCompactTaskImpl none sampleTask [1] none true false
        samplePurgeState).2.2.compaction.compactionStatuses 9 = none :=
  (report_purge_frame none sampleTask [1] none false samplePurgeState (by decide)).1
    9 (by decide)

/-! ## Claim C2: atomicity on metastore failure. -/

/-- With a failing store transaction, every return path of
`report_compact_task_impl` leaves exactly the state with the selector
cache purged: all staged value transactions are dropped. -/
theorem reportCompactTaskImpl_storeFail_state (contextId : Option Nat)
    (task : CompactTask) (registeredGroups : List Nat)
    (tableStatsChange : Option (List (Nat × Int))) (deterministicMode : Bool)
    (s : ManagerState) :
    (reportCompactTaskImpl contextId task registeredGroups tableStatsChange false
        deterministicMode s).2.2 =
      { s with compaction :=
          { s.compaction with
            compactionSelectors :=
              alEraseAll s.compaction.compactionSelectors
                (purgeKeysOf s.compaction.compactionStatuses registeredGroups) } } := by
  by_cases hv : reportValidationOk contextId
      ((alLookup s.compaction.compactTaskAssignment task.taskId).map
        (fun a => a.contextId)) = true
  · cases hst : alLookup
        (alEraseAll s.compaction.compactionStatuses
          (purgeKeysOf s.compaction.compactionStatuses registeredGroups))
        task.compactionGroupId with
    | none => simp [reportCompactTaskImpl, hv, hst]
    | some cs =>
      by_cases h1 : task.taskStatus = TaskStatus.success
      · by_cases h2 : alLookup s.versioning.currentVersion.levels task.compactionGroupId
            = none ∨ isCompactTaskExpired task s.versioning.branchedSsts = true
        · rcases h2 with h2 | h2
          · simp [reportCompactTaskImpl, hv, hst, h1, h2]
          · simp [reportCompactTaskImpl, hv, hst, h1, h2]
        · simp [reportCompactTaskImpl, hv, hst, h1, h2]
      · simp [reportCompactTaskImpl, hv, hst, h1]
  · cases hb : reportValidationOk contextId
        ((alLookup s.compaction.compactTaskAssignment task.taskId).map
          (fun a => a.contextId)) with
    | true => exact absurd hb hv
    | false => simp [reportCompactTaskImpl, hb]

/-- With a failing store transaction, a validated report returns the error. -/
theorem reportCompactTaskImpl_storeFail_error (contextId : Option Nat)
    (task : CompactTask) (registeredGroups : List Nat)
    (tableStatsChange : Option (List (Nat × Int))) (deterministicMode : Bool)
    (s : ManagerState)
    (hv : reportValidationOk contextId
        ((alLookup s.compaction.compactTaskAssignment task.taskId).map
          (fun a => a.contextId)) = true) :
    (reportCompactTaskImpl contextId task registeredGroups tableStatsChange false
        deterministicMode s).1 = Except.error () := by
  cases hst : alLookup
      (alEraseAll s.compaction.compactionStatuses
        (purgeKeysOf s.compaction.compactionStatuses registeredGroups))
      task.compactionGroupId with
  | none => simp [reportCompactTaskImpl, hv, hst]
  | some cs =>
    by_cases h1 : task.taskStatus = TaskStatus.success
    · by_cases h2 : alLookup s.versioning.currentVersion.levels task.compactionGroupId
          = none ∨ isCompactTaskExpired task s.versioning.branchedSsts = true
      · rcases h2 with h2 | h2
        · simp [reportCompactTaskImpl, hv, hst, h1, h2]
        · simp [reportCompactTaskImpl, hv, hst, h1, h2]
      · simp [reportCompactTaskImpl, hv, hst, h1, h2]
    · simp [reportCompactTaskImpl, hv, hst, h1]

/-- A state with a cancelled-task assignment and a stale selector cache
entry for unregistered group 9. -/
def sampleCancelTask : CompactTask :=
  { sampleTask with taskStatus := TaskStatus.manualCanceled, compactionGroupId := 1 }

def sampleSelectorState : ManagerState :=
  ⟨⟨[(1, CompactStatus.new 1 2), (9, CompactStatus.new 9 1)],
    [(5, ⟨sampleCancelTask, 3⟩)], [(9, [TaskType.dynamic])]⟩, sampleVersioning, ⟨20, 20⟩⟩

/-- Claim C2 counterexample: a validated report whose metastore transaction
fails returns an error, yet the in-memory state is NOT unchanged — the
selector cache entry of unregistered group 9 has been purged eagerly,
outside any value transaction. -/
theorem report_store_failure_counterexample :
    (reportCompactTaskImpl (some 3) sampleCancelTask [1] none false false
        sampleSelectorState).1 = Except.error () ∧
    (reportCompactTaskImpl (some 3) sampleCancelTask [1] none false false
        sampleSelectorState).2.2.compaction.compactionSelectors = [] ∧
    sampleSelectorState.compaction.compactionSelectors = [(9, [TaskType.dynamic])] := by
  decide

/-- Claim C2 (amended): when a metastore transaction fails, the enclosing
operation returns an error and all state staged in that transaction's
value wrappers is dropped: for the single-transaction operations
(`commit_epoch`, `report_compact_task`, pin/unpin) the compact statuses,
task assignments, the whole versioning state (current version, delta log,
branched ssts, stats, pins) and the latest snapshot are unchanged. Two
caveats: the non-transactional selector cache may still be mutated
(`report_compact_task_impl` purges unregistered groups' selectors eagerly
and `get_compact_task_impl` caches a selector before committing), as the
counterexample shows; and `get_compact_task_impl` performs two serial
transactions — the precheck installing a fresh `CompactStatus` and the
later task commit — so when the precheck commits and the later transaction
fails, the call's compact statuses retain exactly the precheck-committed
entry (consistently in store and memory) while assignments, versioning and
the latest snapshot stay unchanged. -/
theorem store_failure_drops_staged_changes
    (epoch : Nat) (sstables : List ExtendedSstableInfo)
    (commitGroups : List (Nat × List Nat)) (commitIndex : List (Nat × Nat))
    (contextId : Option Nat) (task : CompactTask) (registeredGroups : List Nat)
    (tableStatsChange : Option (List (Nat × Int))) (deterministicMode : Bool)
    (pinCtx pinEpoch : Nat) (groupId taskId : Nat) (taskType : TaskType)
    (picked : Option CompactionTask) (cgInfos : List (Nat × CompactionGroupInfo))
    (allTableIds : List Nat) (storeOkPre : Bool) (s : ManagerState) :
    ((commitEpoch epoch sstables commitGroups commitIndex false s).2 = s ∧
     (¬s.versioning.disableCommitEpochs →
       s.versioning.currentVersion.maxCommittedEpoch < epoch →
       (commitEpoch epoch sstables commitGroups commitIndex false s).1 =
         Except.error ())) ∧
    ((reportCompactTaskImpl contextId task registeredGroups tableStatsChange false
        deterministicMode s).2.2.compaction.compactionStatuses =
        s.compaction.compactionStatuses ∧
     (reportCompactTaskImpl contextId task registeredGroups tableStatsChange false
        deterministicMode s).2.2.compaction.compactTaskAssignment =
        s.compaction.compactTaskAssignment ∧
     (reportCompactTaskImpl contextId task registeredGroups tableStatsChange false
        deterministicMode s).2.2.versioning = s.versioning ∧
     (reportCompactTaskImpl contextId task registeredGroups tableStatsChange false
        deterministicMode s).2.2.latestSnapshot = s.latestSnapshot ∧
     (reportValidationOk contextId
        ((alLookup s.compaction.compactTaskAssignment task.taskId).map
          (fun a => a.contextId)) = true →
       (reportCompactTaskImpl contextId task registeredGroups tableStatsChange false
          deterministicMode s).1 = Except.error ())) ∧
    ((pinSpecificSnapshot pinCtx pinEpoch false s).2 = s ∧
     (((alLookup s.versioning.pinnedSnapshots pinCtx).getD
          ⟨pinCtx, INVALID_EPOCH⟩).minimalPinnedSnapshot = INVALID_EPOCH →
       (pinSpecificSnapshot pinCtx pinEpoch false s).1 = Except.error ())) ∧
    ((pinSnapshot pinCtx false s).2 = s ∧
     (((alLookup s.versioning.pinnedSnapshots pinCtx).getD
          ⟨pinCtx, INVALID_EPOCH⟩).minimalPinnedSnapshot = INVALID_EPOCH →
       (pinSnapshot pinCtx false s).1 = Except.error ())) ∧
    ((unpinSnapshot pinCtx false s).2 = s ∧
     ((alLookup s.versioning.pinnedSnapshots pinCtx).isSome = true →
       (unpinSnapshot pinCtx false s).1 = Except.error ())) ∧
    (((alLookup s.compaction.compactionStatuses groupId).isSome = true →
       (getCompactTaskImpl groupId taskType picked taskId cgInfos allTableIds
          registeredGroups storeOkPre false deterministicMode
          s).2.compaction.compactionStatuses = s.compaction.compactionStatuses ∧
       (getCompactTaskImpl groupId taskType picked taskId cgInfos allTableIds
          registeredGroups storeOkPre false deterministicMode
          s).2.compaction.compactTaskAssignment = s.compaction.compactTaskAssignment ∧
       (getCompactTaskImpl groupId taskType picked taskId cgInfos allTableIds
          registeredGroups storeOkPre false deterministicMode s).2.versioning =
         s.versioning ∧
       (getCompactTaskImpl groupId taskType picked taskId cgInfos allTableIds
          registeredGroups storeOkPre false deterministicMode s).2.latestSnapshot =
         s.latestSnapshot) ∧
     ((alLookup s.compaction.compactionStatuses groupId).isNone = true →
       getCompactTaskImpl groupId taskType picked taskId cgInfos allTableIds
          registeredGroups false false deterministicMode s = (Except.error (), s)) ∧
     (∀ cfg : CompactionGroupInfo, alLookup cgInfos groupId = some cfg →
       (alLookup s.compaction.compactionStatuses groupId).isNone = true →
       (getCompactTaskImpl groupId taskType picked taskId cgInfos allTableIds
          registeredGroups true false deterministicMode
          s).2.compaction.compactionStatuses =
         alInsert s.compaction.compactionStatuses groupId
           (CompactStatus.new groupId cfg.maxLevel) ∧
       (getCompactTaskImpl groupId taskType picked taskId cgInfos allTableIds
          registeredGroups true false deterministicMode
          s).2.compaction.compactTaskAssignment = s.compaction.compactTaskAssignment ∧
       (getCompactTaskImpl groupId taskType picked taskId cgInfos allTableIds
          registeredGroups true false deterministicMode s).2.versioning =
         s.versioning ∧
       (getCompactTaskImpl groupId taskType picked taskId cgInfos allTableIds
          registeredGroups true false deterministicMode s).2.latestSnapshot =
         s.latestSnapshot)) := by
  refine ⟨⟨?_, ?_⟩, ?_, ⟨?_, ?_⟩, ⟨?_, ?_⟩, ⟨?_, ?_⟩, ?_⟩
  · by_cases hd : s.versioning.disableCommitEpochs
    · simp [commitEpoch, hd]
    · by_cases hm : s.versioning.currentVersion.maxCommittedEpoch < epoch
      · simp [commitEpoch, hd, hm]
      · simp [commitEpoch, hd, hm]
  · intro hd hm
    simp [commitEpoch, hd, hm]
  · have hst := reportCompactTaskImpl_storeFail_state contextId task registeredGroups
      tableStatsChange deterministicMode s
    refine ⟨?_, ?_, ?_, ?_, ?_⟩
    · rw [hst]
    · rw [hst]
    · rw [hst]
    · rw [hst]
    · intro hv
      exact reportCompactTaskImpl_storeFail_error contextId task registeredGroups
        tableStatsChange deterministicMode s hv
  · by_cases h0 : ((alLookup s.versioning.pinnedSnapshots pinCtx).getD
        ⟨pinCtx, INVALID_EPOCH⟩).minimalPinnedSnapshot = INVALID_EPOCH
    · simp [pinSpecificSnapshot, h0]
    · simp [pinSpecificSnapshot, h0]
  · intro h0
    simp [pinSpecificSnapshot, h0]
  · by_cases h0 : ((alLookup s.versioning.pinnedSnapshots pinCtx).getD
        ⟨pinCtx, INVALID_EPOCH⟩).minimalPinnedSnapshot = INVALID_EPOCH
    · simp [pinSnapshot, h0]
    · simp [pinSnapshot, h0]
  · intro h0
    simp [pinSnapshot, h0]
  · by_cases h0 : (alLookup s.versioning.pinnedSnapshots pinCtx).isSome = true
    · simp [unpinSnapshot, h0]
    · simp [unpinSnapshot, h0]
  · intro h0
    simp [unpinSnapshot, h0]
  · refine ⟨?_, ?_, ?_⟩
    · intro hsome
      rcases Option.isSome_iff_exists.mp hsome with ⟨cs, hcs⟩
      have hnp : (alLookup s.compaction.compactionStatuses groupId).isNone = false := by
        simp [hcs]
      cases hcfg : alLookup cgInfos groupId with
      | none => simp [getCompactTaskImpl, hcfg]
      | some cfg =>
        by_cases hverl : (alLookup s.versioning.currentVersion.levels groupId).isNone = true
        · simp [getCompactTaskImpl, hcfg, hnp, hcs, hverl]
        · cases hp : picked with
          | none => simp [getCompactTaskImpl, hcfg, hnp, hcs, hverl,
              CompactStatus.getCompactTask]
          | some ret =>
            refine ⟨?_, ?_, ?_, ?_⟩ <;>
            · simp [getCompactTaskImpl, hcfg, hnp, hcs, hverl, hp,
                CompactStatus.getCompactTask]
              split
              · rw [reportCompactTaskImpl_storeFail_state]
              · rfl
    · intro hnone
      cases hcfg : alLookup cgInfos groupId with
      | none => simp [getCompactTaskImpl, hcfg]
      | some cfg => simp [getCompactTaskImpl, hcfg, hnone]
    · intro cfg hcfg hnone
      have hins := alLookup_alInsert_self s.compaction.compactionStatuses groupId
        (CompactStatus.new groupId cfg.maxLevel)
      by_cases hverl : (alLookup s.versioning.currentVersion.levels groupId).isNone = true
      · simp [getCompactTaskImpl, hcfg, hnone, hins, hverl]
      · cases hp : picked with
        | none => simp [getCompactTaskImpl, hcfg, hnone, hins, hverl,
            CompactStatus.getCompactTask]
        | some ret =>
          refine ⟨?_, ?_, ?_, ?_⟩ <;>
          · simp [getCompactTaskImpl, hcfg, hnone, hins, hverl, hp,
              CompactStatus.getCompactTask]
            split
            · rw [reportCompactTaskImpl_storeFail_state]
            · rfl

/-- Witness for C2 (amended): the failing commit on `sampleState` errors
and leaves the state untouched, and the partial failure of
`get_compact_task_impl` — precheck committed, later transaction failed —
leaves exactly the precheck-installed compact status for group 3. -/
theorem store_failure_drops_staged_changes_witness :
    (commitEpoch 30 [] [] [] false sampleState).1 = Except.error () ∧
    (commitEpoch 30 [] [] [] false sampleState).2 = sampleState ∧
    (getCompactTaskImpl 3 TaskType.dynamic none 6 [(3, ⟨0, [1], 2⟩)] [1] [2]
        true false false sampleState).2.compaction.compactionStatuses =
      alInsert sampleState.compaction.compactionStatuses 3 (CompactStatus.new 3 2) := by
  have h := store_failure_drops_staged_changes 30 [] [] [] none sampleTask [2] none false
    1 3 3 6 TaskType.dynamic none [(3, ⟨0, [1], 2⟩)] [1] true sampleState
  refine ⟨h.1.2 (by decide) (by decide), h.1.1, ?_⟩
  have h3 := (h.2.2.2.2.2.2.2 ⟨0, [1], 2⟩ (by decide) (by decide)).1
  simpa using h3

/-! ## Claim C9: strict version-id increment. -/

/-- Claim C9: each operation that replaces the current version —
`commit_epoch`, a successful compaction report, `sync_group` — produces a
version whose id is exactly the previous id plus one; every other path
leaves the current version untouched. Hence ids strictly increase along
any sequence of such mutations. -/
theorem version_id_increments_by_one
    (epoch : Nat) (sstables : List ExtendedSstableInfo)
    (commitGroups : List (Nat × List Nat)) (commitIndex : List (Nat × Nat))
    (storeOk : Bool) (contextId : Option Nat) (task : CompactTask)
    (registeredGroups : List Nat) (tableStatsChange : Option (List (Nat × Int)))
    (storeOk2 deterministicMode : Bool)
    (statusesOpt : Option (List (Nat × CompactStatus)))
    (cgInfos : List (Nat × CompactionGroupInfo)) (storeOk3 : Bool)
    (s : ManagerState) (v : Versioning) :
    ((commitEpoch epoch sstables commitGroups commitIndex storeOk
        s).2.versioning.currentVersion.id = s.versioning.currentVersion.id + 1 ∨
     (commitEpoch epoch sstables commitGroups commitIndex storeOk
        s).2.versioning.currentVersion = s.versioning.currentVersion) ∧
    ((reportCompactTaskImpl contextId task registeredGroups tableStatsChange storeOk2
        deterministicMode s).2.2.versioning.currentVersion.id =
        s.versioning.currentVersion.id + 1 ∨
     (reportCompactTaskImpl contextId task registeredGroups tableStatsChange storeOk2
        deterministicMode s).2.2.versioning.currentVersion =
        s.versioning.currentVersion) ∧
    ((syncGroup statusesOpt cgInfos storeOk3 v).2.1.currentVersion.id =
        v.currentVersion.id + 1 ∨
     (syncGroup statusesOpt cgInfos storeOk3 v).2.1.currentVersion =
        v.currentVersion) := by
  refine ⟨?_, ?_, ?_⟩
  · by_cases hd : s.versioning.disableCommitEpochs
    · right
      simp [commitEpoch, hd]
    · by_cases hm : s.versioning.currentVersion.maxCommittedEpoch < epoch
      · cases storeOk with
        | false =>
          right
          simp [commitEpoch, hd, hm]
        | true =>
          left
          simp [commitEpoch, commitEpochCore, hd, hm]
      · right
        simp [commitEpoch, hd, hm]
  · by_cases hv : reportValidationOk contextId
        ((alLookup s.compaction.compactTaskAssignment task.taskId).map
          (fun a => a.contextId)) = true
    · cases hst : alLookup
          (alEraseAll s.compaction.compactionStatuses
            (purgeKeysOf s.compaction.compactionStatuses registeredGroups))
          task.compactionGroupId with
      | none =>
        right
        cases storeOk2 with
        | false => simp [reportCompactTaskImpl, hv, hst]
        | true => simp [reportCompactTaskImpl, hv, hst]
      | some cs =>
        by_cases h1 : task.taskStatus = TaskStatus.success
        · by_cases h2 : alLookup s.versioning.currentVersion.levels task.compactionGroupId
              = none ∨ isCompactTaskExpired task s.versioning.branchedSsts = true
          · rcases h2 with h2 | h2 <;>
            · right
              cases storeOk2 with
              | false => simp [reportCompactTaskImpl, hv, hst, h1, h2]
              | true => simp [reportCompactTaskImpl, hv, hst, h1, h2]
          · cases storeOk2 with
            | false =>
              right
              simp [reportCompactTaskImpl, hv, hst, h1, h2]
            | true =>
              left
              simp [reportCompactTaskImpl, hv, hst, h1, h2, HummockVersion.applyDelta,
                genVersionDelta]
        · right
          cases storeOk2 with
          | false => simp [reportCompactTaskImpl, hv, hst, h1]
          | true => simp [reportCompactTaskImpl, hv, hst, h1]
    · cases hb : reportValidationOk contextId
          ((alLookup s.compaction.compactTaskAssignment task.taskId).map
            (fun a => a.contextId)) with
      | true => exact absurd hb hv
      | false =>
        right
        simp [reportCompactTaskImpl, hb]
  · simp only [syncGroup]
    split
    · right
      rfl
    · cases storeOk3 with
      | false =>
        right
        simp
      | true =>
        left
        simp

/-! ## Claim C3: trivial-move handling in `get_compact_task`. -/

/-- A trivial-move shaped task: one non-overlapping L0 run moving into the
empty adjacent level 1. -/
def sampleTrivialTask : CompactTask :=
  ⟨6, [⟨0, LevelType.nonoverlapping, [⟨7, [1], 0⟩]⟩, ⟨1, LevelType.nonoverlapping, []⟩],
    1, 0, [⟨7, [1], 0⟩], 4, TaskStatus.success, 2, TaskType.dynamic, false, []⟩

/-- Claim C3 counterexample: for a trivial-move task the generated delta
records NO gc sst ids — `drop_sst` is skipped — although the very same
inputs would yield gc id 7 on the non-trivial path. This refutes "records
the gc sst ids of the removed input SSTs". -/
theorem trivial_move_gc_counterexample :
    CompactStatus.isTrivialMoveTask sampleTrivialTask = true ∧
    (genVersionDelta [] [] sampleVersion sampleTrivialTask true false).1.gcSstIds = [] ∧
    (genVersionDelta [] [] sampleVersion sampleTrivialTask false false).1.gcSstIds =
      [7] := by decide

/-- The task completed inline by the trivial-move branch of
`get_compact_task_impl`: output = the single input run, status Success. -/
def trivialMoveTaskOf (groupId taskId : Nat) (ret : CompactionTask)
    (cs : CompactStatus) (w : Nat) : CompactTask :=
  { taskId := taskId
    inputSsts := ret.input.inputLevels
    targetLevel := ret.input.targetLevel
    targetSubLevelId := ret.input.targetSubLevelId
    sortedOutputSsts :=
      match ret.input.inputLevels with
      | lvl :: _ => lvl.tableInfos
      | [] => []
    watermark := w
    taskStatus := TaskStatus.success
    compactionGroupId := groupId
    taskType := ret.compactionTaskType
    gcDeleteKeys := decide (ret.input.targetLevel = cs.levelHandlers.length - 1)
    existingTableIds := [] }

/-- Claim C3 (amended): when the Dynamic selector picks a trivial move,
`get_compact_task_impl` marks the task Success and completes it inline:
the version delta (a trivial-move delta) is persisted directly, no
compactor assignment is created, and — contrary to the claim as stated —
NO gc sst ids are recorded and the branched-sst index is untouched,
because `drop_sst` is skipped for trivial moves (the inputs are reparented,
not garbage). The public `get_compact_task` only ever returns tasks in
Pending status. -/
theorem trivial_move_completed_inline
    (groupId taskId : Nat) (ret : CompactionTask) (cfg : CompactionGroupInfo)
    (cgInfos : List (Nat × CompactionGroupInfo)) (allTableIds : List Nat)
    (registeredGroups : List Nat) (s : ManagerState) (cs : CompactStatus)
    (hcfg : alLookup cgInfos groupId = some cfg)
    (hstatus : alLookup s.compaction.compactionStatuses groupId = some cs)
    (hreg : groupId ∈ registeredGroups)
    (hlev : (alLookup s.versioning.currentVersion.levels groupId).isSome = true)
    (htm : isTrivialMoveInput ret.input.inputLevels ret.input.targetLevel = true)
    (hnexp : inputSstsExpired groupId ret.input.inputLevels
      s.versioning.branchedSsts = false)
    (hfresh : alLookup s.compaction.compactTaskAssignment taskId = none) :
    ((getCompactTaskImpl groupId TaskType.dynamic (some ret) taskId cgInfos allTableIds
        registeredGroups true true false s).1 =
      Except.ok (some (trivialMoveTaskOf groupId taskId ret cs
        (s.versioning.pinnedSnapshots.foldl
          (fun acc p => min acc p.2.minimalPinnedSnapshot)
          s.versioning.currentVersion.maxCommittedEpoch))) ∧
     (trivialMoveTaskOf groupId taskId ret cs
        (s.versioning.pinnedSnapshots.foldl
          (fun acc p => min acc p.2.minimalPinnedSnapshot)
          s.versioning.currentVersion.maxCommittedEpoch)).taskStatus =
       TaskStatus.success) ∧
    (getCompactTaskImpl groupId TaskType.dynamic (some ret) taskId cgInfos allTableIds
        registeredGroups true true false s).2.compaction.compactTaskAssignment =
      s.compaction.compactTaskAssignment ∧
    (getCompactTaskImpl groupId TaskType.dynamic (some ret) taskId cgInfos allTableIds
        registeredGroups true true false s).2.versioning.branchedSsts =
      s.versioning.branchedSsts ∧
    (getCompactTaskImpl groupId TaskType.dynamic (some ret) taskId cgInfos allTableIds
        registeredGroups true true false s).2.versioning.hummockVersionDeltas =
      alInsert s.versioning.hummockVersionDeltas (s.versioning.currentVersion.id + 1)
        (genVersionDelta s.versioning.hummockVersionDeltas s.versioning.branchedSsts
          s.versioning.currentVersion
          (trivialMoveTaskOf groupId taskId ret cs
            (s.versioning.pinnedSnapshots.foldl
              (fun acc p => min acc p.2.minimalPinnedSnapshot)
              s.versioning.currentVersion.maxCommittedEpoch))
          true false).1 ∧
    (genVersionDelta s.versioning.hummockVersionDeltas s.versioning.branchedSsts
        s.versioning.currentVersion
        (trivialMoveTaskOf groupId taskId ret cs
          (s.versioning.pinnedSnapshots.foldl
            (fun acc p => min acc p.2.minimalPinnedSnapshot)
            s.versioning.currentVersion.maxCommittedEpoch))
        true false).1.gcSstIds = [] ∧
    (∀ outcomes : List (Option CompactionTask × Nat), ∀ s₀ : ManagerState,
      ∀ t : CompactTask,
      (getCompactTask groupId TaskType.dynamic cgInfos allTableIds registeredGroups
          true true false outcomes s₀).1 = Except.ok (some t) →
      t.taskStatus = TaskStatus.pending) := by
  have hnp : (alLookup s.compaction.compactionStatuses groupId).isNone = false := by
    simp [hstatus]
  have hni : (alLookup s.versioning.currentVersion.levels groupId).isNone = false := by
    rcases Option.isSome_iff_exists.mp hlev with ⟨L, hL⟩
    simp [hL]
  have hpk : groupId ∉ purgeKeysOf s.compaction.compactionStatuses registeredGroups := by
    intro hmem
    rcases List.mem_filter.mp hmem with ⟨_, hdec⟩
    simp at hdec
    exact hdec hreg
  have hstag : alLookup
      (alEraseAll s.compaction.compactionStatuses
        (purgeKeysOf s.compaction.compactionStatuses registeredGroups)) groupId =
      some cs := by
    rw [alLookup_alEraseAll_notMem _ _ _ hpk]
    exact hstatus
  have hloop : ∀ outcomes : List (Option CompactionTask × Nat), ∀ s₀ : ManagerState,
      ∀ t : CompactTask,
      (getCompactTask groupId TaskType.dynamic cgInfos allTableIds registeredGroups
          true true false outcomes s₀).1 = Except.ok (some t) →
      t.taskStatus = TaskStatus.pending := by
    intro outcomes
    induction outcomes with
    | nil =>
      intro s₀ t h
      simp [getCompactTask] at h
    | cons o rest ih =>
      intro s₀ t h
      obtain ⟨pk, tid⟩ := o
      rw [getCompactTask] at h
      rcases hi : getCompactTaskImpl groupId TaskType.dynamic pk tid cgInfos allTableIds
          registeredGroups true true false s₀ with ⟨res, s'⟩
      rw [hi] at h
      cases res with
      | error e => simp at h
      | ok opt =>
        cases opt with
        | none => simp at h
        | some task =>
          by_cases hp : task.taskStatus = TaskStatus.pending
          · simp only [hp, if_pos] at h
            cases h
            exact hp
          · simp only [hp, if_neg, if_false] at h
            exact ih s' t h
  refine ⟨⟨?_, rfl⟩, ?_, ?_, ?_, ?_, hloop⟩
  · simp [getCompactTaskImpl, hcfg, hnp, hstatus, hni, CompactStatus.getCompactTask,
      CompactStatus.isTrivialMoveTask, htm, reportCompactTaskImpl, reportValidationOk,
      hstag, isCompactTaskExpired, hnexp, trivialMoveTaskOf, genVersionDelta,
      genInputDeltas_trivial, alErase_eq_of_lookup_none _ _ hfresh]
  · simp [getCompactTaskImpl, hcfg, hnp, hstatus, hni, CompactStatus.getCompactTask,
      CompactStatus.isTrivialMoveTask, htm, reportCompactTaskImpl, reportValidationOk,
      hstag, isCompactTaskExpired, hnexp, trivialMoveTaskOf, genVersionDelta,
      genInputDeltas_trivial, alErase_eq_of_lookup_none _ _ hfresh]
  · simp [getCompactTaskImpl, hcfg, hnp, hstatus, hni, CompactStatus.getCompactTask,
      CompactStatus.isTrivialMoveTask, htm, reportCompactTaskImpl, reportValidationOk,
      hstag, isCompactTaskExpired, hnexp, trivialMoveTaskOf, genVersionDelta,
      genInputDeltas_trivial, alErase_eq_of_lookup_none _ _ hfresh]
  · simp [getCompactTaskImpl, hcfg, hnp, hstatus, hni, CompactStatus.getCompactTask,
      CompactStatus.isTrivialMoveTask, htm, reportCompactTaskImpl, reportValidationOk,
      hstag, isCompactTaskExpired, hnexp, trivialMoveTaskOf, genVersionDelta,
      genInputDeltas_trivial, alErase_eq_of_lookup_none _ _ hfresh]
  · simp [trivialMoveTaskOf, genVersionDelta, genInputDeltas_trivial]

/-- The selector pick corresponding to `sampleTrivialTask`. -/
def sampleTrivialPick : CompactionTask :=
  ⟨⟨[⟨0, LevelType.nonoverlapping, [⟨7, [1], 0⟩]⟩, ⟨1, LevelType.nonoverlapping, []⟩],
    1, 0⟩, "", 32, TaskType.dynamic⟩

/-- Witness for C3 (amended): the inline trivial move on `sampleState`
leaves the branched-sst index untouched. -/
theorem trivial_move_completed_inline_witness :
    (getCompactTaskImpl 2 TaskType.dynamic (some sampleTrivialPick) 6 [(2, ⟨0, [1], 2⟩)]
        [1] [2] true true false sampleState).2.versioning.branchedSsts =
      sampleState.versioning.branchedSsts :=
  (trivial_move_completed_inline 2 6 sampleTrivialPick ⟨0, [1], 2⟩ [(2, ⟨0, [1], 2⟩)]
    [1] [2] sampleState (CompactStatus.new 2 2) (by decide) (by decide) (by decide)
    (by decide) (by decide) (by decide) (by decide)).2.2.1

/-! ## Claim C1: `commit_epoch` delta construction. -/

/-- A group's levels have an L0 stack. -/
def l0SomeAt (lvls : List (Nat × Levels)) (g : Nat) : Prop :=
  ∃ L, alLookup lvls g = some L ∧ L.l0.isSome = true

/-- A group's levels contain an Overlapping sublevel keyed by `epoch`. -/
def hasEpochSubLevel (lvls : List (Nat × Levels)) (g epoch : Nat) : Prop :=
  ∃ L, alLookup lvls g = some L ∧ ∃ o, L.l0 = some o ∧
    ∃ sl, sl ∈ o.subLevels ∧ sl.subLevelId = epoch ∧ sl.levelType = LevelType.overlapping

/-- A delta's group-deltas map holds an L0 intra-level delta keyed by
`l0_sub_level_id = epoch` for group `g`. -/
def hasEpochIntraDelta (gds : List (Nat × GroupDeltas)) (g epoch : Nat) : Prop :=
  ∃ e, alLookup gds g = some e ∧ ∃ d, GroupDelta.intraLevel d ∈ e.groupDeltas ∧
    d.levelIdx = 0 ∧ d.l0SubLevelId = epoch

theorem alLookup_alPushGroupDelta_self (m : List (Nat × GroupDeltas)) (k : Nat)
    (gd : GroupDelta) :
    alLookup (alPushGroupDelta m k gd) k =
      some ⟨((alLookup m k).getD emptyGroupDeltas).groupDeltas ++ [gd]⟩ := by
  cases h : alLookup m k with
  | none => simp [alPushGroupDelta, h, alLookup_alInsert_self, emptyGroupDeltas]
  | some e => simp [alPushGroupDelta, h, alLookup_alUpdate_self]

theorem alLookup_alPushGroupDelta_ne (m : List (Nat × GroupDeltas)) (k k' : Nat)
    (gd : GroupDelta) (h : k ≠ k') :
    alLookup (alPushGroupDelta m k gd) k' = alLookup m k' := by
  cases hm : alLookup m k with
  | none => simp [alPushGroupDelta, hm, alLookup_alInsert_ne _ _ _ _ h]
  | some e => simp [alPushGroupDelta, hm, alLookup_alUpdate_ne _ _ _ _ h]

theorem commitGroupSsts_mods (epoch : Nat) (chunks : List (Nat × List SstableInfo))
    (gds : List (Nat × GroupDeltas)) (lvls : List (Nat × Levels)) :
    (commitGroupSsts epoch chunks gds lvls).1 = chunks.map (fun p => p.1) := by
  induction chunks generalizing gds lvls with
  | nil => simp [commitGroupSsts]
  | cons c rest ih =>
    obtain ⟨g0, ssts⟩ := c
    simp [commitGroupSsts, ih]

theorem commitGroupSsts_preserves_delta (epoch : Nat)
    (chunks : List (Nat × List SstableInfo)) (gds : List (Nat × GroupDeltas))
    (lvls : List (Nat × Levels)) (g : Nat)
    (h : hasEpochIntraDelta gds g epoch) :
    hasEpochIntraDelta (commitGroupSsts epoch chunks gds lvls).2.1 g epoch := by
  induction chunks generalizing gds lvls with
  | nil => exact h
  | cons c rest ih =>
    obtain ⟨g0, ssts⟩ := c
    simp only [commitGroupSsts]
    apply ih
    by_cases he : g0 = g
    · subst he
      obtain ⟨e, hl, d, hmem, h0, hep⟩ := h
      refine ⟨_, alLookup_alPushGroupDelta_self _ _ _, d, ?_, h0, hep⟩
      have hgd : (alLookup gds g0).getD emptyGroupDeltas = e := by rw [hl]; rfl
      rw [hgd]
      exact List.mem_append_left _ hmem
    · obtain ⟨e, hl, hrest⟩ := h
      exact ⟨e, by rw [alLookup_alPushGroupDelta_ne _ _ _ _ he]; exact hl, hrest⟩

theorem commitGroupSsts_delta_mem (epoch : Nat) (chunks : List (Nat × List SstableInfo))
    (gds : List (Nat × GroupDeltas)) (lvls : List (Nat × Levels)) (g : Nat)
    (h : g ∈ chunks.map (fun p => p.1)) :
    hasEpochIntraDelta (commitGroupSsts epoch chunks gds lvls).2.1 g epoch := by
  induction chunks generalizing gds lvls with
  | nil => simp at h
  | cons c rest ih =>
    obtain ⟨g0, ssts⟩ := c
    simp only [commitGroupSsts]
    by_cases he : g0 = g
    · subst he
      apply commitGroupSsts_preserves_delta
      refine ⟨_, alLookup_alPushGroupDelta_self _ _ _,
        ⟨0, epoch, ssts, []⟩, List.mem_append_right _ (by simp), rfl, rfl⟩
    · have h' : g = g0 ∨ g ∈ rest.map (fun p => p.1) := by
        simpa only [List.map_cons, List.mem_cons] using h
      rcases h' with h1 | h2
      · exact absurd h1.symm he
      · exact ih _ _ h2

theorem commitGroupSsts_preserves_subLevel (epoch : Nat)
    (chunks : List (Nat × List SstableInfo)) (gds : List (Nat × GroupDeltas))
    (lvls : List (Nat × Levels)) (g : Nat)
    (h : hasEpochSubLevel lvls g epoch) :
    hasEpochSubLevel (commitGroupSsts epoch chunks gds lvls).2.2 g epoch := by
  induction chunks generalizing gds lvls with
  | nil => exact h
  | cons c rest ih =>
    obtain ⟨g0, ssts⟩ := c
    simp only [commitGroupSsts]
    apply ih
    obtain ⟨L, hl, o, ho, sl, hmem, hid, hty⟩ := h
    by_cases he : g0 = g
    · subst he
      refine ⟨_, by rw [alLookup_alUpdate_self, hl]; rfl, ?_⟩
      refine ⟨addNewSubLevel o epoch LevelType.overlapping ssts, by simp [ho], sl, ?_,
        hid, hty⟩
      exact List.mem_append_left _ hmem
    · exact ⟨L, by rw [alLookup_alUpdate_ne _ _ _ _ he]; exact hl, o, ho, sl, hmem, hid, hty⟩

theorem commitGroupSsts_preserves_l0Some (epoch : Nat)
    (chunks : List (Nat × List SstableInfo)) (gds : List (Nat × GroupDeltas))
    (lvls : List (Nat × Levels)) (g : Nat) (h : l0SomeAt lvls g) :
    l0SomeAt (commitGroupSsts epoch chunks gds lvls).2.2 g := by
  induction chunks generalizing gds lvls with
  | nil => exact h
  | cons c rest ih =>
    obtain ⟨g0, ssts⟩ := c
    simp only [commitGroupSsts]
    apply ih
    obtain ⟨L, hl, hsome⟩ := h
    by_cases he : g0 = g
    · subst he
      refine ⟨_, by rw [alLookup_alUpdate_self, hl]; rfl, ?_⟩
      rcases Option.isSome_iff_exists.mp hsome with ⟨o, ho⟩
      simp [ho]
    · exact ⟨L, by rw [alLookup_alUpdate_ne _ _ _ _ he]; exact hl, hsome⟩

theorem commitGroupSsts_subLevel_mem (epoch : Nat)
    (chunks : List (Nat × List SstableInfo)) (gds : List (Nat × GroupDeltas))
    (lvls : List (Nat × Levels)) (g : Nat)
    (h : g ∈ chunks.map (fun p => p.1)) (h0 : l0SomeAt lvls g) :
    hasEpochSubLevel (commitGroupSsts epoch chunks gds lvls).2.2 g epoch := by
  induction chunks generalizing gds lvls with
  | nil => simp at h
  | cons c rest ih =>
    obtain ⟨g0, ssts⟩ := c
    simp only [commitGroupSsts]
    by_cases he : g0 = g
    · subst he
      apply commitGroupSsts_preserves_subLevel
      obtain ⟨L, hl, hsome⟩ := h0
      rcases Option.isSome_iff_exists.mp hsome with ⟨o, ho⟩
      refine ⟨_, by rw [alLookup_alUpdate_self, hl]; rfl, ?_⟩
      refine ⟨addNewSubLevel o epoch LevelType.overlapping ssts, by simp [ho], ?_⟩
      exact ⟨⟨0, LevelType.overlapping, ssts, epoch⟩,
        List.mem_append_right _ (by simp), rfl, rfl⟩
    · have h' : g = g0 ∨ g ∈ rest.map (fun p => p.1) := by
        simpa only [List.map_cons, List.mem_cons] using h
      rcases h' with h1 | h2
      · exact absurd h1.symm he
      · apply ih _ _ h2
        obtain ⟨L, hl, hsome⟩ := h0
        exact ⟨L, by rw [alLookup_alUpdate_ne _ _ _ _ he]; exact hl, hsome⟩

/-- Claim C1: a successful `commit_epoch(epoch, ...)` constructs a delta
with `prev_id = current.id` and `new_id = current.id + 1`; for every
compaction group receiving ssts an L0 intra-level delta keyed by
`l0_sub_level_id = epoch` is emitted and an Overlapping L0 sublevel keyed
by `epoch` is inserted into that group's levels; the resulting version has
`max_committed_epoch = epoch` and becomes the current version, with the
latest snapshot swapped to `{epoch, epoch}`. -/
theorem commit_epoch_delta_and_sublevels
    (epoch : Nat) (sstables : List ExtendedSstableInfo)
    (commitGroups : List (Nat × List Nat)) (commitIndex : List (Nat × Nat))
    (s : ManagerState)
    (hd : ¬s.versioning.disableCommitEpochs)
    (hm : s.versioning.currentVersion.maxCommittedEpoch < epoch) :
    (commitEpoch epoch sstables commitGroups commitIndex true s).1 =
      Except.ok (some ⟨epoch, epoch⟩) ∧
    (commitEpochCore epoch sstables commitGroups commitIndex s.versioning).1.prevId =
      s.versioning.currentVersion.id ∧
    (commitEpochCore epoch sstables commitGroups commitIndex s.versioning).1.id =
      s.versioning.currentVersion.id + 1 ∧
    (commitEpochCore epoch sstables commitGroups commitIndex
        s.versioning).1.maxCommittedEpoch = epoch ∧
    (commitEpochCore epoch sstables commitGroups commitIndex
        s.versioning).2.1.maxCommittedEpoch = epoch ∧
    (commitEpoch epoch sstables commitGroups commitIndex true s).2.versioning.currentVersion =
      (commitEpochCore epoch sstables commitGroups commitIndex s.versioning).2.1 ∧
    (commitEpoch epoch sstables commitGroups commitIndex true s).2.latestSnapshot =
      ⟨epoch, epoch⟩ ∧
    (commitEpoch epoch sstables commitGroups commitIndex
        true s).2.versioning.hummockVersionDeltas =
      alInsert s.versioning.hummockVersionDeltas
        (s.versioning.currentVersion.id + 1)
        (commitEpochCore epoch sstables commitGroups commitIndex s.versioning).1 ∧
    (∀ g, g ∈ (commitEpochCore epoch sstables commitGroups commitIndex
        s.versioning).2.2.1 →
      hasEpochIntraDelta
        (commitEpochCore epoch sstables commitGroups commitIndex
          s.versioning).1.groupDeltas g epoch) ∧
    (∀ g, g ∈ (commitEpochCore epoch sstables commitGroups commitIndex
        s.versioning).2.2.1 →
      l0SomeAt s.versioning.currentVersion.levels g →
      hasEpochSubLevel
        (commitEpochCore epoch sstables commitGroups commitIndex
          s.versioning).2.1.levels g epoch) := by
  refine ⟨?_, rfl, rfl, rfl, rfl, ?_, ?_, ?_, ?_, ?_⟩
  · simp [commitEpoch, hd, hm]
  · simp [commitEpoch, hd, hm]
  · simp [commitEpoch, hd, hm]
  · simp [commitEpoch, hd, hm, commitEpochCore]
  · intro g hg
    simp only [commitEpochCore] at hg ⊢
    rw [commitGroupSsts_mods] at hg
    exact commitGroupSsts_delta_mem _ _ _ _ _ hg
  · intro g hg h0
    simp only [commitEpochCore] at hg ⊢
    rw [commitGroupSsts_mods] at hg
    exact commitGroupSsts_subLevel_mem _ _ _ _ _ hg h0

/-- Witness for C1: committing epoch 30 with one sst for group 2 onto
`sampleState` yields snapshot `{30, 30}` and a sublevel keyed by 30. -/
theorem commit_epoch_delta_and_sublevels_witness :
    (commitEpoch 30 [⟨2, ⟨9, [1], 0⟩, []⟩] [(2, [1])] [(1, 2)] true sampleState).1 =
      Except.ok (some ⟨30, 30⟩) ∧
    hasEpochSubLevel
      (commitEpochCore 30 [⟨2, ⟨9, [1], 0⟩, []⟩] [(2, [1])] [(1, 2)]
        sampleState.versioning).2.1.levels 2 30 := by
  have h := commit_epoch_delta_and_sublevels 30 [⟨2, ⟨9, [1], 0⟩, []⟩] [(2, [1])]
    [(1, 2)] sampleState (by decide) (by decide)
  refine ⟨h.1, ?_⟩
  apply h.2.2.2.2.2.2.2.2.2 2
  · decide
  · exact ⟨sampleLevels, by decide, by decide⟩
